import Mathlib

/-!
# Verification of the `mais` simulation backend (shallow embedding)

This file embeds the core of the turn-based multi-actor simulation backend
(`backend/app/simulations/*.py`) into Lean 4 and proves properties of the
embedded definitions.

Conventions:
* Python `str` is `String`; `str.strip()` is `pyStrip` (Python's default
  whitespace set, ASCII fragment plus U+0085/U+00A0).
* `json.loads` is modelled by `json_loads`, a fuel-based recursive-descent
  parser for the JSON grammar accepted by Python's `json` module
  (including the `NaN`/`Infinity`/`-Infinity` extensions, strict rejection
  of raw control characters in strings, last-wins duplicate object keys).
  Lone surrogate escapes are unrepresentable in `Char` and fall back to
  `U+0000`; no property proved here depends on that corner.
* Fallible Python code returns `Option`; raised exceptions are explicit
  result constructors.
-/

set_option autoImplicit false

/-- Python `str.isspace` / default `str.strip()` character set (ASCII fragment
plus NEL and NBSP; the exotic Unicode space code points are irrelevant to the
code under verification). -/
def pyIsSpace (c : Char) : Bool :=
  c = ' ' || c = '\t' || c = '\n' || c = '\r' || c.toNat = 0x0b || c.toNat = 0x0c ||
  (0x1c ≤ c.toNat && c.toNat ≤ 0x1f) || c.toNat = 0x85 || c.toNat = 0xa0

/-- Strip characters satisfying `p` from both ends of a list (Python `str.strip`). -/
def pyStripList (p : Char → Bool) (l : List Char) : List Char :=
  ((l.dropWhile p).reverse.dropWhile p).reverse

/-- Python `text.strip()`. -/
def pyStrip (s : String) : String :=
  ⟨pyStripList pyIsSpace s.toList⟩

/-- Python `text.strip("`" * backtick)`: strip backticks from both ends. -/
def stripBackticks (s : String) : String :=
  ⟨pyStripList (fun c => c = '`') s.toList⟩

/-- JSON values as decoded by Python's `json.loads`.  Numbers are kept as
`mantissa * 10 ^ exp10` (enough to decide Python truthiness and `isinstance`
checks); `nan`/`inf` model Python's non-standard literals. -/
inductive PyJson where
  | null
  | bool (b : Bool)
  | num (mantissa : Int) (exp10 : Int) (isFloat : Bool)
  | nan
  | inf (neg : Bool)
  | str (s : String)
  | arr (items : List PyJson)
  | obj (fields : List (String × PyJson))

/-- JSON inter-token whitespace accepted by Python's `json` scanner. -/
def jsonWs (c : Char) : Bool :=
  c = ' ' || c = '\t' || c = '\n' || c = '\r'

def skipWs (l : List Char) : List Char :=
  l.dropWhile jsonWs

/-- Match a literal character sequence at the head of the input. -/
def dropLeading : List Char → List Char → Option (List Char)
  | [], rest => some rest
  | _ :: _, [] => none
  | p :: ps, c :: cs => if p = c then dropLeading ps cs else none

def lit (s : String) (l : List Char) : Option (List Char) :=
  dropLeading s.toList l

def isJDigit (c : Char) : Bool :=
  '0' ≤ c && c ≤ '9'

def digitsToNat (ds : List Char) : Nat :=
  ds.foldl (fun n c => n * 10 + (c.toNat - '0'.toNat)) 0

def hexVal (c : Char) : Option Nat :=
  let n := c.toNat
  if 48 ≤ n ∧ n ≤ 57 then some (n - 48)
  else if 97 ≤ n ∧ n ≤ 102 then some (n - 87)
  else if 65 ≤ n ∧ n ≤ 70 then some (n - 55)
  else none

def hex4 : List Char → Option (Nat × List Char)
  | a :: b :: c :: d :: rest =>
    match hexVal a, hexVal b, hexVal c, hexVal d with
    | some va, some vb, some vc, some vd =>
        some (((va * 16 + vb) * 16 + vc) * 16 + vd, rest)
    | _, _, _, _ => none
  | _ => none

/-- Parse the body of a JSON string (opening quote already consumed).
Python's decoder is strict: raw control characters below U+0020 are
rejected; `\uXXXX` escapes combine valid surrogate pairs. -/
def parseJString : Nat → List Char → List Char → Option (String × List Char)
  | 0, _, _ => none
  | _ + 1, acc, '"' :: rest => some (⟨acc.reverse⟩, rest)
  | fuel + 1, acc, '\\' :: e :: rest =>
    match e with
    | '"' => parseJString fuel ('"' :: acc) rest
    | '\\' => parseJString fuel ('\\' :: acc) rest
    | '/' => parseJString fuel ('/' :: acc) rest
    | 'b' => parseJString fuel (Char.ofNat 0x08 :: acc) rest
    | 'f' => parseJString fuel (Char.ofNat 0x0c :: acc) rest
    | 'n' => parseJString fuel ('\n' :: acc) rest
    | 'r' => parseJString fuel ('\r' :: acc) rest
    | 't' => parseJString fuel ('\t' :: acc) rest
    | 'u' =>
      match hex4 rest with
      | none => none
      | some (v, rest1) =>
        if 0xd800 ≤ v && v ≤ 0xdbff then
          match rest1 with
          | '\\' :: 'u' :: rest2 =>
            match hex4 rest2 with
            | some (v2, rest3) =>
              if 0xdc00 ≤ v2 && v2 ≤ 0xdfff then
                parseJString fuel
                  (Char.ofNat (0x10000 + (v - 0xd800) * 0x400 + (v2 - 0xdc00)) :: acc) rest3
              else parseJString fuel (Char.ofNat v2 :: Char.ofNat v :: acc) rest3
            | none => none
          | _ => parseJString fuel (Char.ofNat v :: acc) rest1
        else parseJString fuel (Char.ofNat v :: acc) rest
    | _ => none
  | fuel + 1, acc, c :: rest =>
    if c.toNat < 0x20 then none else parseJString fuel (c :: acc) rest
  | _, _, [] => none

/-- Parse a JSON number (strict RFC grammar, as in Python's `json`):
`-? (0 | [1-9][0-9]*) (. [0-9]+)? ([eE][+-]?[0-9]+)?`. -/
def parseJNumber (l : List Char) : Option (PyJson × List Char) :=
  let (neg, l1) := match l with
    | '-' :: rest => (true, rest)
    | _ => (false, l)
  let intDigits := l1.takeWhile isJDigit
  if intDigits = [] then none
  else if intDigits.length > 1 && intDigits.head? = some '0' then none
  else
    let l2 := l1.drop intDigits.length
    let (fracDigits, l3) := match l2 with
      | '.' :: rest =>
        let ds := rest.takeWhile isJDigit
        if ds = [] then ([], l2) else (ds, rest.drop ds.length)
      | _ => ([], l2)
    let fracPresent := match l2 with
      | '.' :: rest => (rest.takeWhile isJDigit) ≠ []
      | _ => false
    if (match l2 with | '.' :: _ => true | _ => false) && !fracPresent then none
    else
      let parseExp : List Char → Option (Int × List Char × Bool) := fun l4 =>
        match l4 with
        | c :: rest =>
          if c = 'e' || c = 'E' then
            let (eneg, rest1) := match rest with
              | '-' :: r => (true, r)
              | '+' :: r => (false, r)
              | _ => (false, rest)
            let eds := rest1.takeWhile isJDigit
            if eds = [] then none
            else
              let ev : Int := Int.ofNat (digitsToNat eds)
              some (if eneg then -ev else ev, rest1.drop eds.length, true)
          else some (0, l4, false)
        | [] => some (0, [], false)
      match parseExp l3 with
      | none => none
      | some (expVal, l5, expPresent) =>
        let mant : Int := Int.ofNat (digitsToNat (intDigits ++ fracDigits))
        let mant := if neg then -mant else mant
        some (.num mant (expVal - Int.ofNat fracDigits.length)
                (fracPresent || expPresent), l5)

mutual

/-- Parse one JSON value. -/
def parseJValue : Nat → List Char → Option (PyJson × List Char)
  | 0, _ => none
  | fuel + 1, l =>
    match l with
    | [] => none
    | c :: cs =>
      if c = 't' then (lit "true" l).map (fun r => (.bool true, r))
      else if c = 'f' then (lit "false" l).map (fun r => (.bool false, r))
      else if c = 'n' then (lit "null" l).map (fun r => (.null, r))
      else if c = 'N' then (lit "NaN" l).map (fun r => (.nan, r))
      else if c = 'I' then (lit "Infinity" l).map (fun r => (.inf false, r))
      else if c = '"' then (parseJString fuel [] cs).map (fun (s, r) => (.str s, r))
      else if c = '[' then
        let cs1 := skipWs cs
        match cs1 with
        | ']' :: rest => some (.arr [], rest)
        | _ => parseJArrayItems fuel cs1 []
      else if c = '{' then
        let cs1 := skipWs cs
        match cs1 with
        | '}' :: rest => some (.obj [], rest)
        | _ => parseJObjectFields fuel cs1 []
      else if c = '-' then
        match lit "-Infinity" l with
        | some r => some (.inf true, r)
        | none => parseJNumber l
      else if isJDigit c then parseJNumber l
      else none

/-- Parse array items after `[` (first item pending), accumulating in reverse. -/
def parseJArrayItems : Nat → List Char → List PyJson → Option (PyJson × List Char)
  | 0, _, _ => none
  | fuel + 1, l, acc =>
    match parseJValue fuel l with
    | none => none
    | some (v, rest) =>
      match skipWs rest with
      | ',' :: rest1 => parseJArrayItems fuel (skipWs rest1) (v :: acc)
      | ']' :: rest1 => some (.arr (v :: acc).reverse, rest1)
      | _ => none

/-- Parse object members after `{` (first key pending), accumulating in reverse. -/
def parseJObjectFields : Nat → List Char → List (String × PyJson) →
    Option (PyJson × List Char)
  | 0, _, _ => none
  | fuel + 1, l, acc =>
    match l with
    | '"' :: cs =>
      match parseJString fuel [] cs with
      | none => none
      | some (k, rest) =>
        match skipWs rest with
        | ':' :: rest1 =>
          match parseJValue fuel (skipWs rest1) with
          | none => none
          | some (v, rest2) =>
            match skipWs rest2 with
            | ',' :: rest3 => parseJObjectFields fuel (skipWs rest3) ((k, v) :: acc)
            | '}' :: rest3 => some (.obj ((k, v) :: acc).reverse, rest3)
            | _ => none
        | _ => none
    | _ => none

end

/-- Model of Python `json.loads`: one JSON document, optionally surrounded by
whitespace; trailing data is an error. -/
def json_loads (s : String) : Option PyJson :=
  let l := skipWs s.toList
  match parseJValue (l.length + 1) l with
  | none => none
  | some (v, rest) => if skipWs rest = [] then some v else none

/-- Python `dict.get` on a decoded JSON object: last binding wins (duplicate
keys overwrite in insertion order).  On a non-object this returns `none`;
in the parser below the decoded span always begins with `{`, hence is an
object, so the non-object branch is unreachable. -/
def jsonGet : PyJson → String → Option PyJson
  | .obj fields, k => (fields.filter (fun p => p.1 = k)).getLast?.map (·.2)
  | _, _ => none

/-- Python truthiness (`bool(x)`) of a decoded JSON value. -/
def pyTruthy : PyJson → Bool
  | .null => false
  | .bool b => b
  | .num m _ _ => m ≠ 0
  | .nan => true
  | .inf _ => true
  | .str s => s ≠ ""
  | .arr items => !items.isEmpty
  | .obj fields => !fields.isEmpty

/-- `isinstance(x, str)` on a decoded JSON value. -/
def jsonIsStr : Option PyJson → Bool
  | some (.str _) => true
  | _ => false

/-- The regex `\{[\s\S]*\}` searched over `s` (`re.search`, greedy):
matches from the first `{` to the last `}` provided the `{` comes first. -/
def braceSpan (s : String) : Option String :=
  let l := s.toList
  match l.findIdx? (fun c => c = '{') with
  | none => none
  | some p =>
    match l.reverse.findIdx? (fun c => c = '}') with
    | none => none
    | some ri =>
      let q := l.length - 1 - ri
      if p < q then some ⟨(l.drop p).take (q + 1 - p)⟩ else none

/-- Python `s.startswith(pre)` (via `dropLeading`, which kernel-reduces). -/
def pyStartsWith (s pre : String) : Bool :=
  (dropLeading pre.toList s.toList).isSome

/-- The fence-stripping stage of `parse_termination_payload`: trim, then if
the text starts with a triple backtick, strip backticks from both ends and
trim again. -/
def fencedRaw (text : String) : String :=
  let raw := pyStrip text
  if pyStartsWith raw "```" then pyStrip (stripBackticks raw) else raw

/-- The `_JSON_BLOCK_RE.search` stage applied to the fenced/trimmed text. -/
def terminationSpan (text : String) : Option String :=
  braceSpan (fencedRaw text)

/-- The decoded JSON object of the located brace span, when both stages succeed. -/
def terminationJson (text : String) : Option PyJson :=
  (terminationSpan text).bind json_loads

/-- `backend/app/simulations/prompts.py`, `parse_termination_payload`:
parse a moderator/synthesizer response `{"terminate": bool, "message": str}`,
accepting optional code fences; falls back to the original trimmed text. -/
def parse_termination_payload (text : String) : Bool × String :=
  let raw := pyStrip text
  if raw = "" then (false, "")
  else
    match terminationSpan text with
    | none => (false, pyStrip text)
    | some span =>
      match json_loads span with
      | none => (false, pyStrip text)
      | some obj =>
        let terminate := pyTruthy ((jsonGet obj "terminate").getD (.bool false))
        match jsonGet obj "message" with
        | some (.str m) => (terminate, pyStrip m)
        | _ => (terminate, pyStrip (pyStrip text))

/-- `backend/app/simulations/runner.py`, `_parse_termination_payload`:
the runner keeps its own copy of the parser; its body is character-for-character
identical to `parse_termination_payload` in `prompts.py`. -/
def _parse_termination_payload (text : String) : Bool × String :=
  let raw := pyStrip text
  if raw = "" then (false, "")
  else
    match terminationSpan text with
    | none => (false, pyStrip text)
    | some span =>
      match json_loads span with
      | none => (false, pyStrip text)
      | some obj =>
        let terminate := pyTruthy ((jsonGet obj "terminate").getD (.bool false))
        match jsonGet obj "message" with
        | some (.str m) => (terminate, pyStrip m)
        | _ => (terminate, pyStrip (pyStrip text))

example : json_loads "\x7b\"terminate\": true, \"message\": \"done\"\x7d" =
    some (.obj [("terminate", .bool true), ("message", .str "done")]) := by
  rfl

example : parse_termination_payload "\x7b\"terminate\": true, \"message\": \"done\"\x7d" =
    (true, "done") := by
  rfl

example : parse_termination_payload "not json" = (false, "not json") := by
  rfl

example : parse_termination_payload "```json\n\x7b\"terminate\": false, \"message\": \"ok\"\x7d\n```" =
    (false, "ok") := by
  rfl

/-! ## Data model (`backend/app/simulations/models.py`) -/

/-- `InteractionMode` (`models.py`). -/
inductive InteractionMode where
  | debate
  | collaboration
  | interaction
  | custom
deriving DecidableEq, Repr

/-- `AgentConfig` (`models.py`).  The optional generation parameters
(`temperature`, `max_tokens`, `context_size`) and `persona` are passed
through to the external LLM call only; no code path modelled here reads
them, so they are omitted from the embedding. -/
structure AgentConfig where
  name : String
  model : String
  system_prompt : Option String := none
  debate_side : Option String := none
  responsibility : Option String := none
  provider : Option String := none
deriving DecidableEq, Repr

/-- `ModeratorConfig` (`models.py`); generation parameters omitted as above. -/
structure ModeratorConfig where
  enabled : Bool := false
  model : Option String := none
  provider : Option String := none
  system_prompt : Option String := none
  frequency_turns : Nat := 2
deriving DecidableEq, Repr

/-- `SynthesizerConfig` (`models.py`); generation parameters omitted as above. -/
structure SynthesizerConfig where
  enabled : Bool := false
  model : Option String := none
  provider : Option String := none
  system_prompt : Option String := none
  frequency_turns : Nat := 2
deriving DecidableEq, Repr

/-- `StartSimulationRequest` (`models.py`). -/
structure StartSimulationRequest where
  topic : String
  mode : InteractionMode
  stage : String := ""
  turn_limit : Nat := 10
  agents : List AgentConfig
  moderator : ModeratorConfig := {}
  synthesizer : SynthesizerConfig := {}
deriving DecidableEq, Repr

/-- `TranscriptMessage` (`models.py`): `agent_id` is the signed actor id
(1-based actor index, −1 moderator, −2 synthesizer). -/
structure TranscriptMessage where
  role : String
  name : String
  content : String
  turn : Nat
  model : String
  agent_id : Int
deriving DecidableEq, Repr

/-- `SimulationTranscript` (`models.py`). -/
structure SimulationTranscript where
  simulation_id : String
  topic : String
  mode : InteractionMode
  messages : List TranscriptMessage
deriving DecidableEq, Repr

/-- `SimulationEvent` (`events.py`): a frozen `type` tag plus a data dict.
The embedding enumerates the payload shapes the backend actually publishes. -/
inductive SimulationEvent where
  | statusOnly (status : String)
  | statusTyping (status : String) (name : String) (turn : Nat)
  | token (name : String) (turn : Nat) (tok : String) (role : String) (agent_id : Int)
  | message (name : String) (turn : Nat) (content : String) (role : String)
      (model : String) (agent_id : Int)
  | error (message : String)
deriving DecidableEq, Repr

/-- The settings fields read by the simulation runner.  `core/config.py`
declares `env`, `orphan_grace_seconds`, `max_turn_limit` and `max_agents`;
the runner additionally reads `max_topic_chars`, `max_stage_chars` and
`max_prompt_chars`, which are modelled as the values those attribute reads
yield. -/
structure Settings where
  env : String := "dev"
  orphan_grace_seconds : Nat := 5
  max_turn_limit : Nat := 40
  max_agents : Nat := 4
  max_topic_chars : Nat
  max_stage_chars : Nat
  max_prompt_chars : Nat
deriving DecidableEq, Repr

/-- Python truthiness of an `Optional[str]` (`None` and `""` are falsy). -/
def optStrTruthy : Option String → Bool
  | none => false
  | some s => s ≠ ""

/-! ## Event bus / run state (`backend/app/simulations/state.py`) -/

/-- `asyncio.Queue`: `maxsize = 0` means unbounded (`asyncio.Queue()` default). -/
structure PyQueue where
  maxsize : Nat
  items : List SimulationEvent
deriving DecidableEq, Repr

/-- `Queue.put_nowait`: `none` models a raised `asyncio.QueueFull`
(raised only when `0 < maxsize ≤ len(items)`). -/
def put_nowait (q : PyQueue) (e : SimulationEvent) : Option PyQueue :=
  if q.maxsize = 0 || q.items.length < q.maxsize then
    some { q with items := q.items ++ [e] }
  else none

/-- An `asyncio.Task` handle as the state machine observes it. -/
structure TaskHandle where
  done : Bool
  cancelRequested : Bool
deriving DecidableEq, Repr

/-- `SimulationState` (`state.py`).  The subscriber set is keyed by queue
identity (`nextQueueId` allocates fresh identities); `time.monotonic()` is
an externally supplied tick. -/
structure SimulationState where
  simulation_id : String
  request : StartSimulationRequest
  cancel_event : Bool := false
  finished_event : Bool := false
  transcript : Option SimulationTranscript := none
  task : Option TaskHandle := none
  subscribers : List (Nat × PyQueue) := []
  nextQueueId : Nat := 0
  last_subscriber_change : Nat := 0
deriving DecidableEq, Repr

/-- `SimulationState.subscribe`: registers a fresh `asyncio.Queue()` —
note the default constructor, i.e. `maxsize = 0` — and returns its handle. -/
def SimulationState.subscribe (st : SimulationState) (now : Nat) :
    Nat × SimulationState :=
  let q : PyQueue := { maxsize := 0, items := [] }
  (st.nextQueueId,
   { st with
       subscribers := st.subscribers ++ [(st.nextQueueId, q)]
       nextQueueId := st.nextQueueId + 1
       last_subscriber_change := now })

/-- `SimulationState.unsubscribe`: discard the sink; if nobody is listening
anymore and the background task is started and not done, set cancellation
and cancel the task. -/
def SimulationState.unsubscribe (st : SimulationState) (qid : Nat) (now : Nat) :
    SimulationState :=
  let subs := st.subscribers.filter (fun p => p.1 ≠ qid)
  let st := { st with subscribers := subs, last_subscriber_change := now }
  if subs.isEmpty then
    match st.task with
    | some t =>
      if !t.done then
        { st with cancel_event := true, task := some { t with cancelRequested := true } }
      else st
    | none => st
  else st

/-- `SimulationState.publish`: non-blocking enqueue to every registered sink;
a sink whose queue is full keeps its old contents (the event is dropped for
that sink only). -/
def SimulationState.publish (st : SimulationState) (e : SimulationEvent) :
    SimulationState :=
  { st with
      subscribers := st.subscribers.map (fun p =>
        match put_nowait p.2 e with
        | some q => (p.1, q)
        | none => p) }

/-! ## Simulation registry (`backend/app/simulations/manager.py`) -/

/-- `SimulationManager`: the id → `SimulationState` map. -/
structure SimulationManager where
  sims : List (String × SimulationState)
deriving DecidableEq, Repr

/-- The per-state effect of `SimulationManager.stop` on a found state: set the
cancellation event, publish `status{stopping}`, and request cancellation of
the background task when it is started and not done. -/
def stopEffect (st : SimulationState) : SimulationState :=
  let st := { st with cancel_event := true }
  let st := st.publish (.statusOnly "stopping")
  match st.task with
  | some t =>
    if !t.done then { st with task := some { t with cancelRequested := true } }
    else st
  | none => st

/-- `SimulationManager.stop`: returns `false` if the id is absent; otherwise
applies `stopEffect` to the found state.  Note the state is never removed
from the map, so a finished simulation is still found. -/
def SimulationManager.stop (m : SimulationManager) (simulation_id : String) :
    Bool × SimulationManager :=
  match m.sims.lookup simulation_id with
  | none => (false, m)
  | some st =>
    (true, { m with
      sims := m.sims.map (fun p =>
        if p.1 = simulation_id then (p.1, stopEffect st) else p) })

/-! ## Turn executor (`backend/app/simulations/turn_executor.py`) -/

/-- `strip_user_name_from_final_content`: strip one leading
`<name><ws>*:<ws>*` prefix (the regex `^{re.escape(name)}\s*:\s*`,
substituted once). -/
def strip_user_name_from_final_content (final_content : String) (name : String) :
    String :=
  match dropLeading name.toList final_content.toList with
  | none => final_content
  | some rest =>
    match rest.dropWhile pyIsSpace with
    | ':' :: rest2 => ⟨rest2.dropWhile pyIsSpace⟩
    | _ => final_content

/-- Result of one turn-executor call: either an exception propagates
(`raised`, with the `FriendlyLLMError` distinction), or the function
returns its `terminate` boolean (`returned false` on the mid-stream
cancellation path). -/
inductive TEResult where
  | raised (friendly : Bool) (msg : String)
  | returned (terminate : Bool)
deriving DecidableEq, Repr

/-- Output of the turn-executor embedding: the transcript list it was given
(possibly extended by one appended entry), the published events, the result. -/
structure TEOut where
  transcript : List TranscriptMessage
  events : List SimulationEvent
  result : TEResult
deriving DecidableEq, Repr

/-- The `async for chunk in llm.astream(...)` loop of `stream_one_turn`:
`cancelAt i` is whether `state.cancel_event.is_set()` holds when the `i`-th
chunk is observed.  Returns accumulated non-empty tokens, events extended by
one `token` event per non-empty chunk, and whether the loop returned early
because cancellation was observed. -/
def teStream (cancelAt : Nat → Bool) (name role : String) (turn : Nat)
    (agent_id : Int) :
    List String → Nat → List String → List SimulationEvent →
    List String × List SimulationEvent × Bool
  | [], _, acc, evs => (acc, evs, false)
  | chunk :: rest, i, acc, evs =>
    if cancelAt i then (acc, evs, true)
    else if chunk ≠ "" then
      teStream cancelAt name role turn agent_id rest (i + 1) (acc ++ [chunk])
        (evs ++ [.token name turn chunk role agent_id])
    else teStream cancelAt name role turn agent_id rest (i + 1) acc evs

/-- `stream_one_turn` (`turn_executor.py`).  The external collaborators are
abstracted: `buildErr` is the outcome of `build_chat_model` (a `some`
models a raised `FriendlyLLMError`), `chunks` the token stream produced by
the resolved model, `cancelAt` the cancellation signal as observed at each
chunk.  Mid-stream generator failures (which re-raise unchanged) are
modelled in the orchestration-loop embedding below. -/
def stream_one_turn (buildErr : Option String) (cancelAt : Nat → Bool)
    (chunks : List String) (role name model : String)
    (transcript : List TranscriptMessage) (agent_id : Int) (turn : Nat)
    (events : List SimulationEvent) : TEOut :=
  match buildErr with
  | some msg => ⟨transcript, events, .raised true msg⟩
  | none =>
    let events := events ++ [.statusTyping "typing" name turn]
    match teStream cancelAt name role turn agent_id chunks 0 [] events with
    | (_, events, true) => ⟨transcript, events, .returned false⟩
    | (parts, events, false) =>
      let full := pyStrip (String.join parts)
      let (terminate, final0) :=
        if role = "moderator" || role = "synthesizer" then
          parse_termination_payload full
        else (false, full)
      let final_content := strip_user_name_from_final_content final0 name
      let m : TranscriptMessage := ⟨role, name, final_content, turn, model, agent_id⟩
      ⟨transcript ++ [m],
       events ++ [.message name turn final_content role model agent_id],
       .returned terminate⟩

/-- The `message`-type events of a trace, in order. -/
def msgEvents (evs : List SimulationEvent) : List SimulationEvent :=
  evs.filter (fun e => match e with | .message .. => true | _ => false)

/-! ## Orchestration loop (`backend/app/simulations/runner.py`)

The loop's external collaborators are abstracted by an oracle:
* `turnOutcome k` — what the `k`-th `_stream_one_turn` call's LLM stream did
  (completed with these chunks / cancellation observed mid-stream / the
  `build_chat_model` call raised / the stream raised);
* `extCancelBy k` — whether an external `cancel_event.set()` has happened by
  the time of the `k`-th `cancel_event.is_set()` check performed outside a
  stream (the flag is one-shot, so the model ORs this into the state);
* `orphan` — how the pre-start orphan-grace wait ended;
* `idleTimeout k` — whether the `k`-th idle-mid-run check observed an empty
  subscriber set past the grace period. -/

/-- Outcome of one `_stream_one_turn` LLM stream. -/
inductive TurnOutcome where
  | completed (chunks : List String)
  | cancelled (chunks : List String)
  | buildFailed (msg : String)
  | streamErrored (chunks : List String) (friendly : Bool) (msg : String)

/-- How the pre-start orphan-grace wait loop ended. -/
inductive OrphanOutcome where
  | subscriberAttached
  | cancelRequested
  | timedOut

structure RunOracle where
  turnOutcome : Nat → TurnOutcome
  extCancelBy : Nat → Bool
  orphan : OrphanOutcome
  idleTimeout : Nat → Bool

/-- The loop-local mutable state of `run_simulation`, plus the published-event
trace and two oracle cursors.  `facCalls` is ghost instrumentation recording
`(role, final_call)` for every facilitator invocation. -/
structure LoopSt where
  cancel : Bool
  events : List SimulationEvent
  transcript : List TranscriptMessage
  actor_turns : Nat
  turn : Nat
  calls : Nat
  checks : Nat
  facCalls : List (String × Bool)
deriving DecidableEq, Repr

/-- `await state.publish(e)` as seen by the runner: append to the trace. -/
def pubEv (st : LoopSt) (e : SimulationEvent) : LoopSt :=
  { st with events := st.events ++ [e] }

/-- One `state.cancel_event.is_set()` check outside a stream: the one-shot
flag is the OR of its current value and any external set by now. -/
def checkCancel (o : RunOracle) (st : LoopSt) : Bool × LoopSt :=
  let c := st.cancel || o.extCancelBy st.checks
  (c, { st with cancel := c, checks := st.checks + 1 })

/-- The `token` events published for the non-empty chunks of one stream. -/
def runnerTokenEvents (name role : String) (turn : Nat) (agent_id : Int)
    (chunks : List String) : List SimulationEvent :=
  (chunks.filter (fun c => c ≠ "")).map (fun t => .token name turn t role agent_id)

/-- Result of one `_stream_one_turn` call as its caller sees it: the returned
`terminate` bool, the bare `return` on the mid-stream-cancellation path
(Python `None`, falsy at every call site), or a raised exception. -/
inductive TurnRes where
  | ok (terminate : Bool)
  | noneRes
  | raised (friendly : Bool) (msg : String)
deriving DecidableEq, Repr

/-- `_stream_one_turn` (`runner.py`): publish `status{typing}`, stream tokens
(checking the cancellation flag before each chunk; a bare `return` if set),
join and trim, parse the termination payload for facilitator roles, append
the transcript entry and publish the mirroring `message` event.  Unlike the
`turn_executor.py` variant it does not strip the speaker-name prefix. -/
def runnerStreamOneTurn (o : RunOracle) (st : LoopSt) (role name model : String)
    (agent_id : Int) (turn : Nat) : LoopSt × TurnRes :=
  let outcome := o.turnOutcome st.calls
  let st := { st with calls := st.calls + 1 }
  match outcome with
  | .buildFailed msg => (st, .raised true msg)
  | .cancelled chunks =>
    let st := pubEv st (.statusTyping "typing" name turn)
    let st := { st with
        events := st.events ++ runnerTokenEvents name role turn agent_id chunks,
        cancel := true }
    (st, .noneRes)
  | .streamErrored chunks friendly msg =>
    let st := pubEv st (.statusTyping "typing" name turn)
    let st := { st with
        events := st.events ++ runnerTokenEvents name role turn agent_id chunks }
    (st, .raised friendly msg)
  | .completed chunks =>
    let st := pubEv st (.statusTyping "typing" name turn)
    let st := { st with
        events := st.events ++ runnerTokenEvents name role turn agent_id chunks }
    let full := pyStrip (String.join (chunks.filter (fun c => c ≠ "")))
    let tf :=
      if role = "moderator" || role = "synthesizer" then
        _parse_termination_payload full
      else (false, full)
    let terminate := tf.1
    let final_content := tf.2
    let m : TranscriptMessage := ⟨role, name, final_content, turn, model, agent_id⟩
    let st := { st with transcript := st.transcript ++ [m] }
    let st := pubEv st (.message name turn final_content role model agent_id)
    (st, .ok terminate)

/-- `settings.max_prompt_chars` guard: Python `sp and len(sp) > max`. -/
def promptTooLong (sp : Option String) (settings : Settings) : Bool :=
  match sp with
  | some p => (p ≠ "") && p.length > settings.max_prompt_chars
  | none => false

/-- How the actor `for` loop ended. -/
inductive PassExit where
  | cont
  | broke
  | returned
  | raisedOut (msg : String)
deriving DecidableEq, Repr

/-- The `for agent_id, agent in enumerate(req.agents, start=1)` pass:
per iteration, break on budget exhaustion or on an observed cancellation,
raise on an oversized agent prompt, publish `error` + `status{error}` and
return on a turn failure; otherwise stream the turn and continue.  The
returned `Nat` is `executed_agents`. -/
def actorPass (o : RunOracle) (settings : Settings) (req : StartSimulationRequest) :
    List (Nat × AgentConfig) → LoopSt → Nat → LoopSt × Nat × PassExit
  | [], st, executed => (st, executed, .cont)
  | (agent_id, agent) :: rest, st, executed =>
    if st.actor_turns ≥ req.turn_limit then (st, executed, .broke)
    else
      match checkCancel o st with
      | (true, st) => (st, executed, .broke)
      | (false, st) =>
        let st := { st with actor_turns := st.actor_turns + 1, turn := st.turn + 1 }
        let executed := executed + 1
        if promptTooLong agent.system_prompt settings then
          (st, executed,
           .raisedOut ("System prompt too long for agent \x27" ++ agent.name ++ "\x27."))
        else
          match runnerStreamOneTurn o st "agent" agent.name agent.model agent_id st.turn with
          | (st, .raised friendly msg) =>
            let emsg := if friendly then msg
              else "A model call failed. Check configuration and try again."
            let st := pubEv (pubEv st (.error emsg)) (.statusOnly "error")
            (st, executed, .returned)
          | (st, _) => actorPass o settings req rest st executed

/-- Loop bookkeeping of `run_simulation` besides the shared state. -/
structure LoopVars where
  st : LoopSt
  terminated_early : Bool
  collaboration_rounds : Nat
  synth_concluded : Bool
  iters : Nat
deriving Repr

/-- Whether a facilitator block ended with the `return` of an error handler. -/
inductive BlockRes where
  | ok (v : LoopVars)
  | returned (v : LoopVars)

/-- The synthesizer cadence block (`runner.py` lines 426–482): runs when the
synthesizer is enabled in collaboration mode, no cancellation is observed,
a model is configured, and the completed-full-round count is a positive
multiple of `frequency_turns`.  `final_call` (recorded as ghost data; in the
source it only varies the appended prompt wording) is whether the actor-turn
budget is already exhausted. -/
def synthBlock (o : RunOracle) (req : StartSimulationRequest) (v : LoopVars) :
    BlockRes :=
  if req.synthesizer.enabled && (req.mode = InteractionMode.collaboration) then
    match checkCancel o v.st with
    | (c, st1) =>
      let v := { v with st := st1 }
      if !c && optStrTruthy req.synthesizer.model && v.collaboration_rounds > 0 &&
          v.collaboration_rounds % req.synthesizer.frequency_turns = 0 then
        let final_call : Bool := decide (v.st.actor_turns ≥ req.turn_limit)
        let st := { v.st with
                      turn := v.st.turn + 1
                      facCalls := v.st.facCalls ++ [("synthesizer", final_call)] }
        match runnerStreamOneTurn o st "synthesizer" "Synthesizer"
            (req.synthesizer.model.getD "") (-2) st.turn with
        | (st, .ok terminate) =>
          if terminate then
            .ok { v with st := st, terminated_early := true, synth_concluded := true }
          else .ok { v with st := st }
        | (st, .noneRes) => .ok { v with st := st }
        | (st, .raised friendly msg) =>
          let emsg := if friendly then msg else "Synthesizer model call failed."
          let st := pubEv (pubEv st (.error emsg)) (.statusOnly "error")
          .returned { v with st := st }
      else .ok v
  else .ok v

/-- The moderator cadence block (`runner.py` lines 485–540): runs when the
moderator is enabled in debate mode, no cancellation is observed, a model is
configured, and the running sequential message index `turn` (which counts
facilitator turns too) is divisible by `frequency_turns`. -/
def moderatorBlock (o : RunOracle) (req : StartSimulationRequest) (v : LoopVars) :
    BlockRes :=
  if req.moderator.enabled && (req.mode = InteractionMode.debate) then
    match checkCancel o v.st with
    | (c, st1) =>
      let v := { v with st := st1 }
      if !c && optStrTruthy req.moderator.model &&
          v.st.turn % req.moderator.frequency_turns = 0 then
        let final_call : Bool := decide (v.st.actor_turns ≥ req.turn_limit)
        let st := { v.st with
                      turn := v.st.turn + 1
                      facCalls := v.st.facCalls ++ [("moderator", final_call)] }
        match runnerStreamOneTurn o st "moderator" "Moderator"
            (req.moderator.model.getD "") (-1) st.turn with
        | (st, .ok terminate) =>
          if terminate then .ok { v with st := st, terminated_early := true }
          else .ok { v with st := st }
        | (st, .noneRes) => .ok { v with st := st }
        | (st, .raised friendly msg) =>
          let emsg := if friendly then msg else "Moderator model call failed."
          let st := pubEv (pubEv st (.error emsg)) (.statusOnly "error")
          .returned { v with st := st }
      else .ok v
  else .ok v

/-- How the `while` loop ended: fell out (condition false, `break`, or fuel
exhaustion — the latter unreachable for fuel > `turn_limit` with a non-empty
actor list), executned an error-handler `return`, or let a
`FriendlyLLMError` propagate (the oversized-agent-prompt raise). -/
inductive LoopExit where
  | fell (v : LoopVars)
  | returned (v : LoopVars)
  | raisedOut (v : LoopVars) (msg : String)

/-- The `while actor_turns < req.turn_limit and not cancel` loop of
`run_simulation`: idle-mid-run check, one actor pass, the round-count
update, the two facilitator blocks, and the `terminated_early` break. -/
def mainLoop (o : RunOracle) (settings : Settings) (req : StartSimulationRequest) :
    Nat → LoopVars → LoopExit
  | 0, v => .fell v
  | fuel + 1, v =>
    if v.st.actor_turns < req.turn_limit then
      match checkCancel o v.st with
      | (true, st) => .fell { v with st := st }
      | (false, st) =>
        let v := { v with st := st }
        if settings.env ≠ "test" && settings.orphan_grace_seconds > 0 &&
            o.idleTimeout v.iters then
          .fell { v with st := { v.st with cancel := true } }
        else
          let v := { v with iters := v.iters + 1 }
          match actorPass o settings req (req.agents.enumFrom 1) v.st 0 with
          | (st, _, .returned) => .returned { v with st := st }
          | (st, _, .raisedOut msg) => .raisedOut { v with st := st } msg
          | (st, executed, _) =>
            let v := { v with
                         st := st
                         collaboration_rounds :=
                           if executed = req.agents.length && executed > 0 then
                             v.collaboration_rounds + 1
                           else v.collaboration_rounds }
            match synthBlock o req v with
            | .returned v => .returned v
            | .ok v =>
              match moderatorBlock o req v with
              | .returned v => .returned v
              | .ok v =>
                if v.terminated_early then .fell v
                else mainLoop o settings req fuel v
    else .fell v

/-- The post-loop forced synthesizer conclusion (`runner.py` lines 547–598):
when not cancelled, not terminated early, synthesizer enabled in
collaboration mode with a model, and it has not already concluded, run one
final synthesizer turn with `final_call = true`.  The `Bool` is whether the
error handler's `return` fired. -/
def finalSynth (o : RunOracle) (req : StartSimulationRequest) (v : LoopVars) :
    LoopVars × Bool :=
  match checkCancel o v.st with
  | (c, st1) =>
    let v := { v with st := st1 }
    if !c && !v.terminated_early && req.synthesizer.enabled &&
        (req.mode = InteractionMode.collaboration) &&
        optStrTruthy req.synthesizer.model && !v.synth_concluded then
      let st := { v.st with
                    turn := v.st.turn + 1
                    facCalls := v.st.facCalls ++ [("synthesizer", true)] }
      match runnerStreamOneTurn o st "synthesizer" "Synthesizer"
          (req.synthesizer.model.getD "") (-2) st.turn with
      | (st, .raised friendly msg) =>
        let emsg := if friendly then msg else "Synthesizer model call failed."
        let st := pubEv (pubEv st (.error emsg)) (.statusOnly "error")
        ({ v with st := st }, true)
      | (st, _) => ({ v with st := st }, false)
    else (v, false)

/-- The terminal status event: `status{stopped}` if cancellation was
observed, `status{finished}` otherwise. -/
def finalStatus (o : RunOracle) (st : LoopSt) : LoopSt :=
  match checkCancel o st with
  | (true, st) => pubEv st (.statusOnly "stopped")
  | (false, st) => pubEv st (.statusOnly "finished")

/-- The observable outcome of `run_simulation`: the published events, the
finalized transcript (`state.transcript`; `none` when never sealed), the
cancellation flag, and an exception escaping the coroutine, if any. -/
structure RunResult where
  events : List SimulationEvent
  sealed : Option SimulationTranscript
  cancel : Bool
  raised : Option String
deriving DecidableEq, Repr

/-- The `finally:` block — seal the accumulated transcript into
`state.transcript`. -/
def sealRun (sid : String) (req : StartSimulationRequest) (st : LoopSt)
    (raisedMsg : Option String) : RunResult :=
  { events := st.events,
    sealed := some { simulation_id := sid, topic := req.topic, mode := req.mode,
                     messages := st.transcript },
    cancel := st.cancel,
    raised := raisedMsg }

/-- The `try ... finally` body of `run_simulation`: the main loop, the
forced final synthesizer, the terminal status event — with the `finally:`
seal applied on every one of its exits (including the propagating raise). -/
def runTry (sid : String) (settings : Settings) (req : StartSimulationRequest)
    (o : RunOracle) (v0 : LoopVars) : RunResult :=
  match mainLoop o settings req (req.turn_limit + 1) v0 with
  | .returned v => sealRun sid req v.st none
  | .raisedOut v msg => sealRun sid req v.st (some msg)
  | .fell v =>
    match finalSynth o req v with
    | (v, true) => sealRun sid req v.st none
    | (v, false) => sealRun sid req (finalStatus o v.st) none

/-- `run_simulation` (`runner.py`): pre-flight validation (raising before the
`try` — nothing sealed), the orphan-grace wait (its timeout path returns
before the `try` — nothing sealed), `status{started}`, then the
`try`/`finally` body `runTry`. -/
def run_simulation (sid : String) (settings : Settings)
    (req : StartSimulationRequest) (o : RunOracle) : RunResult :=
  if req.turn_limit > settings.max_turn_limit then
    ⟨[], none, false, some "Turn limit exceeds server maximum."⟩
  else if req.agents.length > settings.max_agents then
    ⟨[], none, false, some "Too many agents for this server."⟩
  else if req.topic.length > settings.max_topic_chars then
    ⟨[], none, false, some "Topic is too long."⟩
  else if req.stage.length > settings.max_stage_chars then
    ⟨[], none, false, some "Stage text is too long."⟩
  else if promptTooLong req.moderator.system_prompt settings then
    ⟨[], none, false, some "System prompt too long for moderator."⟩
  else if promptTooLong req.synthesizer.system_prompt settings then
    ⟨[], none, false, some "System prompt too long for synthesizer."⟩
  else
    let orphanEnabled := settings.env ≠ "test" && settings.orphan_grace_seconds > 0
    let (cancel0, timedOut) :=
      if orphanEnabled then
        match o.orphan with
        | .timedOut => (true, true)
        | .cancelRequested => (true, false)
        | .subscriberAttached => (false, false)
      else (false, false)
    if timedOut then ⟨[], none, true, none⟩
    else
      let st0 : LoopSt :=
        { cancel := cancel0, events := [.statusOnly "started"], transcript := [],
          actor_turns := 0, turn := 0, calls := 0, checks := 0, facCalls := [] }
      let v0 : LoopVars :=
        { st := st0, terminated_early := false, collaboration_rounds := 0,
          synth_concluded := false, iters := 0 }
      runTry sid settings req o v0

/-! ## Helper lemmas -/

/-- `pyStripList` in terms of Mathlib's `rdropWhile`. -/
theorem pyStripList_eq_rdropWhile (p : Char → Bool) (l : List Char) :
    pyStripList p l = List.rdropWhile p (l.dropWhile p) := rfl

theorem dropWhile_rdropWhile_of_dropWhile_eq_self (p : Char → Bool)
    (m : List Char) (hm : m.dropWhile p = m) :
    (m.rdropWhile p).dropWhile p = m.rdropWhile p := by
  rcases eq_or_ne (m.rdropWhile p) [] with h | h
  · simp [h]
  · rw [List.dropWhile_eq_self_iff] at hm ⊢
    intro hl
    have hpre : m.rdropWhile p <+: m := List.rdropWhile_prefix p m
    have hlen : 0 < m.length := lt_of_lt_of_le hl hpre.length_le
    have hget := hpre.getElem hl
    have := hm hlen
    simpa [List.get_eq_getElem, hget] using this

/-- Stripping both ends is idempotent. -/
theorem pyStripList_idem (p : Char → Bool) (l : List Char) :
    pyStripList p (pyStripList p l) = pyStripList p l := by
  rw [pyStripList_eq_rdropWhile, pyStripList_eq_rdropWhile,
    dropWhile_rdropWhile_of_dropWhile_eq_self p _ (List.dropWhile_idempotent _ _),
    List.rdropWhile_idempotent]

/-- Python `strip()` is idempotent. -/
theorem pyStrip_idem (s : String) : pyStrip (pyStrip s) = pyStrip s := by
  show (⟨pyStripList pyIsSpace (pyStripList pyIsSpace s.toList)⟩ : String) =
    (⟨pyStripList pyIsSpace s.toList⟩ : String)
  rw [pyStripList_idem]

/-! ## C10 — the two termination-payload parsers -/

/-- C10: the two termination-payload parser implementations,
`parse_termination_payload` in `prompts.py` and `_parse_termination_payload`
in `runner.py`, are extensionally equal: for every input string they return
the same `(terminate, message)` pair.  (Their sources are
character-for-character identical, so this holds definitionally.) -/
theorem termination_parsers_extensionally_equal (s : String) :
    _parse_termination_payload s = parse_termination_payload s := rfl

/-! ## C3 — termination-payload failure fallback -/

/-- Whether termination-payload parsing "fails" in the sense of the claim:
the text is empty after trimming, no brace span is found, the span is not
valid JSON, or the decoded object has no string `"message"` field. -/
def terminationParseFailed (text : String) : Bool :=
  pyStrip text = "" ||
  match terminationJson text with
  | none => true
  | some obj =>
    match jsonGet obj "message" with
    | some (.str _) => false
    | _ => true

/-- The `terminate` component actually returned on a parse failure: `false`,
except that when a JSON object was decoded but its `"message"` field is not
a string, the code has already committed to `bool(obj.get("terminate",
False))` before checking the message. -/
def fallbackTerminate (text : String) : Bool :=
  match terminationJson text with
  | some obj => pyTruthy ((jsonGet obj "terminate").getD (.bool false))
  | none => false

/-- C3 counterexample: on `{"terminate": true}` — valid JSON with no string
`"message"` field, hence a parse failure in the claim's sense — the parser
returns `terminate = true`, not the claimed `terminate = false` (the message
does fall back to the original trimmed text). -/
theorem termination_parse_missing_message_keeps_terminate :
    parse_termination_payload "\x7b\"terminate\": true\x7d" =
      (true, "\x7b\"terminate\": true\x7d") ∧
    terminationParseFailed "\x7b\"terminate\": true\x7d" = true := by
  constructor <;> rfl

/-- C3 (amended): for every input string on which termination-payload parsing
fails — no `{...}` brace span found, span not valid JSON, or decoded object
without a string `"message"` field — `parse_termination_payload` returns
message equal to the original trimmed text, and terminate equal to `false`
in the first two cases; in the missing-`"message"` case terminate equals the
Python truthiness of the decoded object's `"terminate"` field (`false` when
absent). -/
theorem termination_parse_failure_falls_back (text : String)
    (h : terminationParseFailed text = true) :
    parse_termination_payload text = (fallbackTerminate text, pyStrip text) := by
  unfold parse_termination_payload fallbackTerminate
  by_cases h0 : pyStrip text = ""
  · have hjson : terminationSpan text = none := by
      unfold terminationSpan fencedRaw
      rw [h0]
      rfl
    simp [h0, terminationJson, hjson]
  · simp only [h0, if_neg h0]
    cases hspan : terminationSpan text with
    | none => simp [terminationJson, hspan]
    | some span =>
      cases hj : json_loads span with
      | none => simp [terminationJson, hspan, hj]
      | some obj =>
        have hjson : terminationJson text = some obj := by
          simp [terminationJson, hspan, Option.bind, hj]
        unfold terminationParseFailed at h
        rw [hjson] at h
        simp only [h0, decide_eq_true_eq, Bool.or_eq_true, decide_eq_true_iff] at h
        rw [hjson]
        cases hm : jsonGet obj "message" with
        | none => simp [hj, hm, pyStrip_idem]
        | some v => cases v <;> simp_all [hj, pyStrip_idem]

/-- C3 witness: `"not json"` is a parse failure (no brace span), and the
theorem instantiates to `(false, "not json")` there. -/
theorem termination_parse_failure_falls_back_witness :
    terminationParseFailed "not json" = true ∧
    parse_termination_payload "not json" =
      (fallbackTerminate "not json", pyStrip "not json") :=
  ⟨rfl, termination_parse_failure_falls_back "not json" rfl⟩

/-! ## Shared concrete fixtures -/

def agentA : AgentConfig :=
  { name := "Agent A", model := "gpt-4o-mini", provider := some "openai" }

def agentB : AgentConfig :=
  { name := "Agent B", model := "claude-3-sonnet", provider := some "anthropic" }

/-- 2 actors, `turn_limit = 1`, moderator and synthesizer disabled. -/
def reqTwoActors : StartSimulationRequest :=
  { topic := "Is AI sentient?", mode := .debate, stage := "", turn_limit := 1,
    agents := [agentA, agentB] }

/-! ## C4 — event-bus sink queues -/

/-- A fresh run state with no subscribers. -/
def busState0 : SimulationState :=
  { simulation_id := "sim-1", request := reqTwoActors }

def startedEvent : SimulationEvent := .statusOnly "started"

/-- C4 (code evaluated at the failing input): the sink handle returned by
`subscribe()` is an `asyncio.Queue()` with `maxsize = 0`, i.e. *unbounded* —
and with a subscriber that never drains, `n` publishes leave all `n` events
queued for every `n`, so nothing is ever dropped and memory grows without
bound, contradicting the claimed bounded drop-on-full queue (and the
code's own comment "No unbounded growth; drop when a subscriber is too
slow", which is unreachable because `put_nowait` can only raise `QueueFull`
for `maxsize > 0`). -/
theorem subscriber_queue_unbounded : ∀ n : Nat,
    ((fun st => st.publish startedEvent)^[n] (busState0.subscribe 0).2).subscribers
      = [(0, { maxsize := 0, items := List.replicate n startedEvent })] := by
  intro n
  induction n with
  | zero => rfl
  | succ n ih =>
    have hstep : ∀ (st : SimulationState) (e : SimulationEvent),
        (st.publish e).subscribers = st.subscribers.map (fun p =>
          match put_nowait p.2 e with
          | some q => (p.1, q)
          | none => p) := fun _ _ => rfl
    rw [Function.iterate_succ_apply', hstep, ih]
    simp [put_nowait, List.replicate_succ']

/-! ## C6 — `stop(simulation_id)` -/

/-- A finished simulation: background task started and done, completion set. -/
def finishedSimState : SimulationState :=
  { simulation_id := "sim-done", request := reqTwoActors,
    task := some { done := true, cancelRequested := false },
    finished_event := true }

def managerFin : SimulationManager :=
  { sims := [("sim-done", finishedSimState)] }

/-- C6 counterexample: stopping an already-finished simulation id does *not*
report not-found — the state stays in the registry, so `stop` returns `true`,
and it is not a pure no-op either: it (re-)sets the cancellation event. -/
theorem stop_on_finished_simulation_reports_found :
    (managerFin.stop "sim-done").1 = true ∧
    ((managerFin.stop "sim-done").2.sims.lookup "sim-done").map
      SimulationState.cancel_event = some true := by
  constructor <;> rfl

/-- C6 (amended): `stop(simulation_id)` returns `false` when the id is
unknown (leaving the registry unchanged); when the id is found — including
for an already-finished simulation — it returns `true`, sets the
cancellation signal, publishes `status{stopping}` to every sink, requests
cancellation of the background task exactly when the task is started and
not yet done (for an already-finished simulation the completed task is
left untouched, making the call safe), and its effect on the cancellation
flag and the task is idempotent. -/
theorem stop_behavior (m : SimulationManager) (sid : String) :
    (m.sims.lookup sid = none → m.stop sid = (false, m)) ∧
    (∀ st, m.sims.lookup sid = some st →
      (m.stop sid).1 = true ∧
      (m.stop sid).2 = { m with sims := m.sims.map (fun p =>
          if p.1 = sid then (p.1, stopEffect st) else p) } ∧
      (stopEffect st).cancel_event = true ∧
      (stopEffect st).subscribers = st.subscribers.map (fun p =>
        match put_nowait p.2 (.statusOnly "stopping") with
        | some q => (p.1, q)
        | none => p) ∧
      (∀ t, st.task = some t → t.done = false →
        (stopEffect st).task = some { t with cancelRequested := true }) ∧
      (∀ t, st.task = some t → t.done = true → (stopEffect st).task = some t) ∧
      (stopEffect (stopEffect st)).cancel_event = (stopEffect st).cancel_event ∧
      (stopEffect (stopEffect st)).task = (stopEffect st).task) := by
  constructor
  · intro h
    simp [SimulationManager.stop, h]
  · intro st h
    refine ⟨by simp [SimulationManager.stop, h], by simp [SimulationManager.stop, h],
      ?_, ?_, ?_, ?_, ?_, ?_⟩
    · cases ht : st.task with
      | none => simp [stopEffect, SimulationState.publish, ht]
      | some t =>
        cases hd : t.done <;>
          simp [stopEffect, SimulationState.publish, ht, hd]
    · cases ht : st.task with
      | none => simp [stopEffect, SimulationState.publish, ht]
      | some t =>
        cases hd : t.done <;>
          simp [stopEffect, SimulationState.publish, ht, hd]
    · intro t ht hd
      simp [stopEffect, SimulationState.publish, ht, hd]
    · intro t ht hd
      simp [stopEffect, SimulationState.publish, ht, hd]
    · cases ht : st.task with
      | none => simp [stopEffect, SimulationState.publish, ht]
      | some t =>
        cases hd : t.done <;>
          simp [stopEffect, SimulationState.publish, ht, hd]
    · cases ht : st.task with
      | none => simp [stopEffect, SimulationState.publish, ht]
      | some t =>
        cases hd : t.done <;>
          simp [stopEffect, SimulationState.publish, ht, hd]

/-- C6 witness: the unknown-id branch and the found-finished branch at
concrete inputs. -/
theorem stop_behavior_witness :
    managerFin.stop "missing" = (false, managerFin) ∧
    (managerFin.stop "sim-done").1 = true :=
  ⟨(stop_behavior managerFin "missing").1 rfl,
   ((stop_behavior managerFin "sim-done").2 finishedSimState rfl).1⟩

/-! ## C8 — last-subscriber disconnect cancels the run -/

/-- C8: whenever `unsubscribe` removes the last remaining sink (the set was
non-empty and filtering out the removed handle leaves it empty) while the
background task is started and not done, the cancellation signal is set and
cancellation of the task is requested. -/
theorem unsubscribe_last_active_subscriber_cancels (st : SimulationState)
    (qid now : Nat) (t : TaskHandle)
    (_hne : st.subscribers ≠ [])
    (hlast : st.subscribers.filter (fun p => p.1 ≠ qid) = [])
    (ht : st.task = some t) (hdone : t.done = false) :
    (st.unsubscribe qid now).cancel_event = true ∧
    (st.unsubscribe qid now).task = some { t with cancelRequested := true } := by
  have hlast' : List.filter (fun p => !decide (p.1 = qid)) st.subscribers = [] := by
    simpa [ne_eq, decide_not] using hlast
  constructor <;> simp [SimulationState.unsubscribe, hlast', ht, hdone]

/-- A run state with one subscriber and a live background task. -/
def watchedState : SimulationState :=
  { simulation_id := "sim-2", request := reqTwoActors,
    task := some { done := false, cancelRequested := false },
    subscribers := [(0, { maxsize := 0, items := [] })], nextQueueId := 1 }

/-- C8 witness: removing the only subscriber of `watchedState` sets
cancellation and cancels the task. -/
theorem unsubscribe_last_active_subscriber_cancels_witness :
    (watchedState.unsubscribe 0 5).cancel_event = true ∧
    (watchedState.unsubscribe 0 5).task =
      some { done := false, cancelRequested := true } :=
  unsubscribe_last_active_subscriber_cancels watchedState 0 5
    { done := false, cancelRequested := false } (by decide) rfl rfl rfl

/-! ## C5 — mid-stream cancellation writes no transcript entry -/

/-- The token-stream loop only ever appends `token` events. -/
theorem teStream_msgEvents (cancelAt : Nat → Bool) (name role : String)
    (turn : Nat) (agent_id : Int) :
    ∀ (chunks : List String) (i : Nat) (acc : List String)
      (evs : List SimulationEvent),
      msgEvents (teStream cancelAt name role turn agent_id chunks i acc evs).2.1 =
        msgEvents evs := by
  intro chunks
  induction chunks with
  | nil => intro i acc evs; rfl
  | cons chunk rest ih =>
    intro i acc evs
    by_cases hc : cancelAt i
    · simp [teStream, hc]
    · by_cases hch : chunk = ""
      · have hstep : teStream cancelAt name role turn agent_id (chunk :: rest) i acc evs
            = teStream cancelAt name role turn agent_id rest (i + 1) acc evs := by
          simp [teStream, hc, hch]
        rw [hstep, ih]
      · have hstep : teStream cancelAt name role turn agent_id (chunk :: rest) i acc evs
            = teStream cancelAt name role turn agent_id rest (i + 1) (acc ++ [chunk])
                (evs ++ [.token name turn chunk role agent_id]) := by
          simp [teStream, hc, hch]
        rw [hstep, ih]
        simp [msgEvents, List.filter_append]

/-- If the cancellation signal holds at some observed chunk, the stream loop
reports cancellation (it checks the flag before every chunk). -/
theorem teStream_cancelled (cancelAt : Nat → Bool) (name role : String)
    (turn : Nat) (agent_id : Int) :
    ∀ (chunks : List String) (i : Nat) (acc : List String)
      (evs : List SimulationEvent),
      (∃ j, j < chunks.length ∧ cancelAt (i + j) = true) →
      (teStream cancelAt name role turn agent_id chunks i acc evs).2.2 = true := by
  intro chunks
  induction chunks with
  | nil => rintro i acc evs ⟨j, hj, _⟩; simp at hj
  | cons chunk rest ih =>
    rintro i acc evs ⟨j, hj, hcj⟩
    by_cases hc : cancelAt i
    · simp [teStream, hc]
    · have hj0 : j ≠ 0 := by rintro rfl; simp at hcj; exact hc hcj
      have hj' : j < rest.length + 1 := by simpa using hj
      have hrest : ∃ j', j' < rest.length ∧ cancelAt (i + 1 + j') = true := by
        refine ⟨j - 1, by omega, ?_⟩
        have heq : i + 1 + (j - 1) = i + j := by omega
        rw [heq]; exact hcj
      by_cases hch : chunk = ""
      · simpa [teStream, hc, hch] using ih (i + 1) acc evs hrest
      · simpa [teStream, hc, hch] using ih (i + 1) (acc ++ [chunk])
          (evs ++ [.token name turn chunk role agent_id]) hrest

/-- C5: if the run's cancellation signal is set when a token is observed
during a turn's token stream, `stream_one_turn` stops and returns
`terminate = false` (Python `return False`), and no transcript entry and no
`message` event is written for that cancelled-mid-stream turn. -/
theorem cancelled_midstream_turn (cancelAt : Nat → Bool) (chunks : List String)
    (role name model : String) (transcript : List TranscriptMessage)
    (agent_id : Int) (turn : Nat) (events : List SimulationEvent)
    (h : ∃ j, j < chunks.length ∧ cancelAt j = true) :
    (stream_one_turn none cancelAt chunks role name model transcript agent_id
        turn events).result = .returned false ∧
    (stream_one_turn none cancelAt chunks role name model transcript agent_id
        turn events).transcript = transcript ∧
    msgEvents (stream_one_turn none cancelAt chunks role name model transcript
        agent_id turn events).events = msgEvents events := by
  have h0 : ∃ j, j < chunks.length ∧ cancelAt (0 + j) = true := by
    simpa using h
  have hflag := teStream_cancelled cancelAt name role turn agent_id chunks 0 []
    (events ++ [.statusTyping "typing" name turn]) h0
  have hmsg := teStream_msgEvents cancelAt name role turn agent_id chunks 0 []
    (events ++ [.statusTyping "typing" name turn])
  simp only [stream_one_turn]
  rcases hts : teStream cancelAt name role turn agent_id chunks 0 []
      (events ++ [.statusTyping "typing" name turn]) with ⟨a, b, c⟩
  rw [hts] at hflag hmsg
  have hc : c = true := hflag
  have hmsg' : msgEvents b = msgEvents (events ++ [.statusTyping "typing" name turn]) :=
    hmsg
  subst hc
  rw [hts]
  refine ⟨rfl, rfl, ?_⟩
  simpa [msgEvents, List.filter_append] using hmsg'

/-- C5 witness: a stream of two chunks with cancellation set from the second
observation on. -/
theorem cancelled_midstream_turn_witness :
    (stream_one_turn none (fun i => decide (1 ≤ i)) ["Hel", "lo"] "agent"
        "Agent A" "gpt-4o-mini" [] 1 1 []).result = .returned false ∧
    (stream_one_turn none (fun i => decide (1 ≤ i)) ["Hel", "lo"] "agent"
        "Agent A" "gpt-4o-mini" [] 1 1 []).transcript = [] ∧
    msgEvents (stream_one_turn none (fun i => decide (1 ≤ i)) ["Hel", "lo"]
        "agent" "Agent A" "gpt-4o-mini" [] 1 1 []).events = msgEvents [] :=
  cancelled_midstream_turn (fun i => decide (1 ≤ i)) ["Hel", "lo"] "agent"
    "Agent A" "gpt-4o-mini" [] 1 1 [] ⟨1, by decide, by decide⟩

/-! ## C1 — round structure and actor-turn budget -/

/-- `env = "test"` settings (orphan/idle logic disabled), generous caps. -/
def settingsTest : Settings :=
  { env := "test", orphan_grace_seconds := 0, max_turn_limit := 40, max_agents := 4,
    max_topic_chars := 4000, max_stage_chars := 4000, max_prompt_chars := 8000 }

/-- Every LLM stream completes with one chunk `"hello"`; no cancellation,
no timeouts. -/
def helloOracle : RunOracle :=
  { turnOutcome := fun _ => .completed ["hello"],
    extCancelBy := fun _ => false,
    orphan := .subscriberAttached,
    idleTimeout := fun _ => false }

/-- C1 (code evaluated at the failing input): with 2 actors,
`turn_limit = 1`, moderator and synthesizer disabled, and every turn
completing normally, the run produces exactly **one** transcript message
(actor id 1 only) — the loop treats `turn_limit` as the *total* actor-turn
budget, not as a per-actor round count, so the first round is cut short
after one turn.  The claim (budget `T × N`, here 2 messages with actor ids
1 and 2, as the repo's own `test_start_and_download_transcript` also
expects) is violated. -/
theorem two_actor_turn_limit_one_run_has_one_message :
    (run_simulation "sim-1" settingsTest reqTwoActors helloOracle).sealed =
      some { simulation_id := "sim-1", topic := "Is AI sentient?",
             mode := .debate,
             messages := [{ role := "agent", name := "Agent A",
                            content := "hello", turn := 1,
                            model := "gpt-4o-mini", agent_id := 1 }] } ∧
    ((run_simulation "sim-1" settingsTest reqTwoActors helloOracle).sealed.map
      (fun t => t.messages.length)) = some 1 := by
  constructor <;> rfl

/-! ## C2 — transcript sealing on exit paths -/

/-- The pre-flight validation of `run_simulation`, passed iff no
`FriendlyLLMError` is raised before the `try` block. -/
def preflightOk (settings : Settings) (req : StartSimulationRequest) : Bool :=
  !(req.turn_limit > settings.max_turn_limit) &&
  !(req.agents.length > settings.max_agents) &&
  !(req.topic.length > settings.max_topic_chars) &&
  !(req.stage.length > settings.max_stage_chars) &&
  !promptTooLong req.moderator.system_prompt settings &&
  !promptTooLong req.synthesizer.system_prompt settings

/-- Whether the orphan-grace wait (active only outside `env = "test"` with a
positive grace period) timed out, i.e. the `return` before `try` fired. -/
def orphanTimedOut (settings : Settings) (o : RunOracle) : Bool :=
  (settings.env ≠ "test" && settings.orphan_grace_seconds > 0) &&
  (match o.orphan with | .timedOut => true | _ => false)

/-- The same request with a turn limit beyond the server maximum. -/
def reqOverLimit : StartSimulationRequest :=
  { reqTwoActors with turn_limit := 50 }

/-- C2 counterexample: on a pre-flight validation failure the run raises
*before* the `try`/`finally`, so the transcript is **never** sealed
(`state.transcript` stays `None`) — contradicting "sealed exactly once on
every exit path". -/
theorem preflight_failure_never_seals :
    (run_simulation "sim-1" settingsTest reqOverLimit helloOracle).sealed = none ∧
    (run_simulation "sim-1" settingsTest reqOverLimit helloOracle).raised =
      some "Turn limit exceeds server maximum." := by
  constructor <;> rfl

/-- C2 (amended): the transcript accumulated so far is sealed (exactly once,
by the `finally` around the whole `try` body, as the very last action) on
every exit path that reaches the `try` block — budget exhaustion, early
termination, cancellation, an error-handler `return` after a turn failure,
and even the oversized-agent-prompt raise escaping the loop; it is **not**
sealed on the two exits before the `try`: pre-flight validation failure and
the orphan-grace-period timeout, where the run ends with `state.transcript`
still unset. -/
theorem transcript_sealed_iff (sid : String) (settings : Settings)
    (req : StartSimulationRequest) (o : RunOracle) :
    (run_simulation sid settings req o).sealed.isSome =
      (preflightOk settings req && !orphanTimedOut settings o) := by
  have hTry : ∀ v0, (runTry sid settings req o v0).sealed.isSome = true := by
    intro v0
    unfold runTry
    cases mainLoop o settings req (req.turn_limit + 1) v0 with
    | returned v => rfl
    | raisedOut v msg => rfl
    | fell v =>
      rcases h : finalSynth o req v with ⟨v', b⟩
      cases b <;> simp [h, sealRun]
  unfold run_simulation preflightOk orphanTimedOut
  by_cases h1 : req.turn_limit > settings.max_turn_limit
  · simp [h1]
  · by_cases h2 : req.agents.length > settings.max_agents
    · simp [h1, h2]
    · by_cases h3 : req.topic.length > settings.max_topic_chars
      · simp [h1, h2, h3]
      · by_cases h4 : req.stage.length > settings.max_stage_chars
        · simp [h1, h2, h3, h4]
        · by_cases h5 : promptTooLong req.moderator.system_prompt settings
          · simp [h1, h2, h3, h4, h5]
          · by_cases h6 : promptTooLong req.synthesizer.system_prompt settings
            · simp [h1, h2, h3, h4, h5, h6]
            · by_cases hOE : ¬settings.env = "test" ∧ 0 < settings.orphan_grace_seconds
              · obtain ⟨hOE1, hOE2⟩ := hOE
                cases ho : o.orphan <;>
                  simp [h1, h2, h3, h4, h5, h6, hOE1, hOE2, ho, hTry]
              · have hd : settings.env = "test" ∨ ¬(0 < settings.orphan_grace_seconds) := by
                  tauto
                rcases hd with hd | hd <;>
                  simp [h1, h2, h3, h4, h5, h6, hOE, hd, hTry]

/-! ## C9 — facilitator cadence -/

/-- 2 actors in debate mode, moderator enabled with `frequency_turns = 2`,
`turn_limit = 6`. -/
def reqModerated : StartSimulationRequest :=
  { topic := "T", mode := .debate, stage := "", turn_limit := 6,
    agents := [agentA, agentB],
    moderator := { enabled := true, model := some "gpt-4o-mini",
                   frequency_turns := 2 } }

/-- Every LLM stream completes with one chunk `"ok"` (which the termination
parser downgrades to plain text, `terminate = false`). -/
def okOracle : RunOracle :=
  { turnOutcome := fun _ => .completed ["ok"],
    extCancelBy := fun _ => false,
    orphan := .subscriberAttached,
    idleTimeout := fun _ => false }

/-- C9 counterexample: with `frequency_turns = 2` the claim says the
moderator is invoked exactly when the number of actor turns so far is a
positive multiple of `2 × frequency_turns = 4`, or on the last possible
round.  The code instead triggers on `turn % frequency_turns == 0` where
`turn` counts every message (facilitators included): here the moderator is
invoked exactly once, right after actor turns 1 and 2 (2 is not a positive
multiple of 4, and with 4 actor turns of budget left this is not the last
round), and never again — in particular not after the 4th actor turn and
not on the last round, both of which the claim requires. -/
theorem moderator_cadence_counterexample :
    (run_simulation "sim-9" settingsTest reqModerated okOracle).sealed =
      some { simulation_id := "sim-9", topic := "T", mode := .debate, messages :=
        [{ role := "agent", name := "Agent A", content := "ok", turn := 1,
           model := "gpt-4o-mini", agent_id := 1 },
         { role := "agent", name := "Agent B", content := "ok", turn := 2,
           model := "claude-3-sonnet", agent_id := 2 },
         { role := "moderator", name := "Moderator", content := "ok", turn := 3,
           model := "gpt-4o-mini", agent_id := -1 },
         { role := "agent", name := "Agent A", content := "ok", turn := 4,
           model := "gpt-4o-mini", agent_id := 1 },
         { role := "agent", name := "Agent B", content := "ok", turn := 5,
           model := "claude-3-sonnet", agent_id := 2 },
         { role := "agent", name := "Agent A", content := "ok", turn := 6,
           model := "gpt-4o-mini", agent_id := 1 },
         { role := "agent", name := "Agent B", content := "ok", turn := 7,
           model := "claude-3-sonnet", agent_id := 2 }] } ∧
    2 % (2 * reqModerated.moderator.frequency_turns) ≠ 0 := by
  constructor
  · rfl
  · decide

/-! ## C7 — transcript turn indices and message-event mirroring -/

/-- The `message` event published when a transcript entry is appended. -/
def toMsgEvent (m : TranscriptMessage) : SimulationEvent :=
  .message m.name m.turn m.content m.role m.model m.agent_id

theorem msgEvents_append (a b : List SimulationEvent) :
    msgEvents (a ++ b) = msgEvents a ++ msgEvents b := by
  simp [msgEvents, List.filter_append]

theorem msgEvents_tokens (name role : String) (turn : Nat) (agent_id : Int)
    (chunks : List String) :
    msgEvents (runnerTokenEvents name role turn agent_id chunks) = [] := by
  unfold runnerTokenEvents msgEvents
  generalize chunks.filter (fun c => c ≠ "") = l
  induction l with
  | nil => rfl
  | cons c cs ih => simp [ih]

theorem filterMsg_tokens (name role : String) (turn : Nat) (agent_id : Int)
    (chunks : List String) :
    List.filter (fun e => match e with
      | SimulationEvent.message _ _ _ _ _ _ => true
      | _ => false) (runnerTokenEvents name role turn agent_id chunks) = [] :=
  msgEvents_tokens name role turn agent_id chunks

theorem msgEvents_nil : msgEvents [] = [] := rfl

theorem msgEvents_statusOnly (s : String) : msgEvents [.statusOnly s] = [] := rfl

theorem msgEvents_typing (s n : String) (t : Nat) :
    msgEvents [.statusTyping s n t] = [] := rfl

theorem msgEvents_error (m : String) : msgEvents [.error m] = [] := rfl

theorem msgEvents_message (n : String) (t : Nat) (c r mo : String) (a : Int) :
    msgEvents [.message n t c r mo a] = [.message n t c r mo a] := rfl

/-- Transcript well-formedness: turn indices are `1, 2, …, length`, and the
`message` events published so far mirror the transcript entries in order. -/
def TrOk (st : LoopSt) : Prop :=
  st.transcript.map TranscriptMessage.turn = List.range' 1 st.transcript.length ∧
  msgEvents st.events = st.transcript.map toMsgEvent

/-- Alignment of the sequential `turn` counter with the transcript: it never
lags, and coincides exactly while no cancellation has been observed. -/
def Aligned (st : LoopSt) : Prop :=
  st.transcript.length ≤ st.turn ∧
  (st.cancel = false → st.turn = st.transcript.length)

/-- What one `_stream_one_turn` call (invoked, as at every call site, at the
already-incremented sequential index `st.turn`) does to the state: either it
completes and appends exactly one entry at index `st.turn` together with its
mirroring `message` event, or it changes neither transcript nor `message`
events (cancellation — which sets the flag — or a raise). -/
theorem runnerStreamOneTurn_spec (o : RunOracle) (st : LoopSt)
    (role name model : String) (agent_id : Int) :
    ∀ st' res, runnerStreamOneTurn o st role name model agent_id st.turn = (st', res) →
      st'.turn = st.turn ∧ st'.actor_turns = st.actor_turns ∧
      st'.facCalls = st.facCalls ∧
      ((∃ m : TranscriptMessage, m.turn = st.turn ∧
          st'.transcript = st.transcript ++ [m] ∧
          msgEvents st'.events = msgEvents st.events ++ [toMsgEvent m] ∧
          st'.cancel = st.cancel ∧ ∃ t, res = .ok t) ∨
        (st'.transcript = st.transcript ∧
          msgEvents st'.events = msgEvents st.events ∧
          (st'.cancel = st.cancel ∨ st'.cancel = true) ∧
          ((res = .noneRes ∧ st'.cancel = true) ∨ ∃ f msg, res = .raised f msg))) := by
  intro st' res heq
  simp only [runnerStreamOneTurn] at heq
  cases h : o.turnOutcome st.calls with
  | completed chunks =>
    rw [h] at heq
    simp only [Prod.mk.injEq] at heq
    obtain ⟨hst, hres⟩ := heq
    subst hst
    refine ⟨rfl, rfl, rfl, Or.inl ⟨_, rfl, rfl, ?_, rfl, _, hres.symm⟩⟩
    simp [pubEv, msgEvents, List.filter_append, filterMsg_tokens, toMsgEvent]
  | cancelled chunks =>
    rw [h] at heq
    simp only [Prod.mk.injEq] at heq
    obtain ⟨hst, hres⟩ := heq
    subst hst
    refine ⟨rfl, rfl, rfl, Or.inr ⟨rfl, ?_, Or.inr rfl, Or.inl ⟨hres.symm, rfl⟩⟩⟩
    simp [pubEv, msgEvents, List.filter_append, filterMsg_tokens]
  | buildFailed msg =>
    rw [h] at heq
    simp only [Prod.mk.injEq] at heq
    obtain ⟨hst, hres⟩ := heq
    subst hst
    exact ⟨rfl, rfl, rfl, Or.inr ⟨rfl, rfl, Or.inl rfl, Or.inr ⟨_, _, hres.symm⟩⟩⟩
  | streamErrored chunks friendly msg =>
    rw [h] at heq
    simp only [Prod.mk.injEq] at heq
    obtain ⟨hst, hres⟩ := heq
    subst hst
    refine ⟨rfl, rfl, rfl, Or.inr ⟨rfl, ?_, Or.inl rfl, Or.inr ⟨_, _, hres.symm⟩⟩⟩
    simp [pubEv, msgEvents, List.filter_append, filterMsg_tokens]

/-- The actor pass preserves transcript well-formedness, and preserves
alignment on the `cont`/`broke` exits (the ones the loop continues from). -/
theorem actorPass_inv (o : RunOracle) (settings : Settings)
    (req : StartSimulationRequest) :
    ∀ (l : List (Nat × AgentConfig)) (st : LoopSt) (ex : Nat),
      TrOk st → Aligned st →
      ∀ st' ex' exit, actorPass o settings req l st ex = (st', ex', exit) →
        TrOk st' ∧ (exit = .cont ∨ exit = .broke → Aligned st') := by
  intro l
  induction l with
  | nil =>
    intro st ex hTr hAl st' ex' exit heq
    simp only [actorPass, Prod.mk.injEq] at heq
    obtain ⟨h1, _, h3⟩ := heq
    subst h1; subst h3
    exact ⟨hTr, fun _ => hAl⟩
  | cons hd tl ih =>
    rcases hd with ⟨agent_id, agent⟩
    intro st ex hTr hAl st' ex' exit heq
    simp only [actorPass, checkCancel] at heq
    by_cases hbud : st.actor_turns ≥ req.turn_limit
    · rw [if_pos hbud] at heq
      simp only [Prod.mk.injEq] at heq
      obtain ⟨h1, _, h3⟩ := heq
      subst h1; subst h3
      exact ⟨hTr, fun _ => hAl⟩
    · rw [if_neg hbud] at heq
      cases hcv : st.cancel || o.extCancelBy st.checks with
      | true =>
        simp only [hcv, Prod.mk.injEq] at heq
        obtain ⟨h1, _, h3⟩ := heq
        subst h1; subst h3
        refine ⟨hTr, fun _ => ⟨hAl.1, fun hc => ?_⟩⟩
        simp at hc
      | false =>
        simp only [hcv] at heq
        have hcf : st.cancel = false := by
          rcases Bool.or_eq_false_iff.mp hcv with ⟨h, _⟩
          exact h
        have hturn : st.turn = st.transcript.length := hAl.2 hcf
        by_cases hpl : promptTooLong agent.system_prompt settings = true
        · rw [if_pos hpl] at heq
          simp only [Prod.mk.injEq] at heq
          obtain ⟨h1, _, h3⟩ := heq
          subst h1; subst h3
          refine ⟨hTr, fun hco => ?_⟩
          rcases hco with hco | hco <;> cases hco
        · rw [if_neg hpl] at heq
          rcases hres : runnerStreamOneTurn o
              { st with
                  cancel := false
                  checks := st.checks + 1
                  actor_turns := st.actor_turns + 1
                  turn := st.turn + 1 }
              "agent" agent.name agent.model agent_id (st.turn + 1) with ⟨st3, res⟩
          have spec := runnerStreamOneTurn_spec o
            { st with
                cancel := false
                checks := st.checks + 1
                actor_turns := st.actor_turns + 1
                turn := st.turn + 1 }
            "agent" agent.name agent.model agent_id st3 res hres
          obtain ⟨hsturn, _, _, hdisj⟩ := spec
          cases res with
          | raised friendly msg =>
            simp only [hres, Prod.mk.injEq] at heq
            obtain ⟨h1, _, h3⟩ := heq
            subst h1; subst h3
            have htr3 : st3.transcript = st.transcript ∧
                msgEvents st3.events = msgEvents st.events := by
              rcases hdisj with ⟨m, _, _, _, _, t, habs⟩ | ⟨ha, hb, _, _⟩
              · cases habs
              · exact ⟨ha, hb⟩
            constructor
            · refine ⟨by simpa [pubEv, htr3.1] using hTr.1, ?_⟩
              show msgEvents ((st3.events ++ [_]) ++ [_]) = _
              rw [msgEvents_append, msgEvents_append, msgEvents_error,
                msgEvents_statusOnly, htr3.2]
              simpa [pubEv, htr3.1] using hTr.2
            · intro hco
              rcases hco with hco | hco <;> cases hco
          | noneRes =>
            simp only [hres] at heq
            have hstep : TrOk st3 ∧ Aligned st3 := by
              rcases hdisj with ⟨m, _, _, _, _, t, habs⟩ | ⟨ha, hb, _, hlast⟩
              · cases habs
              · have hcan : st3.cancel = true := by
                  rcases hlast with ⟨_, hc⟩ | ⟨f, m, habs⟩
                  · exact hc
                  · cases habs
                refine ⟨⟨by simpa [ha] using hTr.1, by rw [hb, ha]; exact hTr.2⟩, ?_, ?_⟩
                · rw [ha, hsturn]
                  simp [hturn]
                · intro hcf3
                  rw [hcan] at hcf3
                  cases hcf3
            exact ih st3 (ex + 1) hstep.1 hstep.2 st' ex' exit heq
          | ok t =>
            simp only [hres] at heq
            have hstep : TrOk st3 ∧ Aligned st3 := by
              rcases hdisj with ⟨m, hmturn, ha, hb, hc, _, _⟩ | ⟨_, _, _, hlast⟩
              · constructor
                · constructor
                  · rw [ha]
                    simp only [List.map_append, List.length_append, hTr.1]
                    simp [hmturn, hturn, List.range'_concat]
                    omega
                  · rw [hb, ha]
                    simp [hTr.2]
                · constructor
                  · rw [ha, hsturn]
                    simp [hturn]
                  · intro _
                    rw [ha, hsturn]
                    simp [hturn]
              · rcases hlast with ⟨habs, _⟩ | ⟨f, m, habs⟩ <;> cases habs
            exact ih st3 (ex + 1) hstep.1 hstep.2 st' ex' exit heq

/-- The `LoopVars` carried by either outcome of a facilitator block. -/
def blockVars : BlockRes → LoopVars
  | .ok v => v
  | .returned v => v

/-- One facilitator stream call at an already-incremented index preserves
transcript well-formedness, and alignment unless it raised. -/
theorem facTurn_inv (o : RunOracle) (st2 : LoopSt) (role name model : String)
    (agent_id : Int)
    (hTr2 : st2.transcript.map TranscriptMessage.turn =
      List.range' 1 st2.transcript.length)
    (hEv2 : msgEvents st2.events = st2.transcript.map toMsgEvent)
    (hturn2 : st2.turn = st2.transcript.length + 1) :
    ∀ st3 res,
      runnerStreamOneTurn o st2 role name model agent_id st2.turn = (st3, res) →
      TrOk st3 ∧ ((∃ f m, res = TurnRes.raised f m) ∨ Aligned st3) := by
  intro st3 res hres
  obtain ⟨hsturn, _, _, hdisj⟩ :=
    runnerStreamOneTurn_spec o st2 role name model agent_id st3 res hres
  rcases hdisj with ⟨m, hmturn, ha, hb, _, t, _⟩ | ⟨ha, hb, _, hlast⟩
  · refine ⟨⟨?_, ?_⟩, Or.inr ⟨?_, ?_⟩⟩
    · rw [ha]
      simp only [List.map_append, List.length_append, hTr2]
      simp only [List.map_cons, List.map_nil, List.length_cons, List.length_nil,
        Nat.add_zero, List.range'_concat]
      simp [hmturn, hturn2]
      omega
    · rw [hb, hEv2, ha]
      simp
    · rw [ha, hsturn, hturn2]
      simp
    · intro _
      rw [ha, hsturn, hturn2]
      simp
  · refine ⟨⟨by simpa [ha] using hTr2, by rw [hb, hEv2, ha]⟩, ?_⟩
    rcases hlast with ⟨_, hcan3⟩ | ⟨f, m, hr⟩
    · refine Or.inr ⟨?_, ?_⟩
      · rw [ha, hsturn, hturn2]
        omega
      · intro hc3
        rw [hcan3] at hc3
        cases hc3
    · exact Or.inl ⟨f, m, hr⟩

/-- The synthesizer block preserves transcript well-formedness, and
alignment on its `ok` outcome. -/
theorem synthBlock_inv (o : RunOracle) (req : StartSimulationRequest)
    (v : LoopVars) (hTr : TrOk v.st) (hAl : Aligned v.st) :
    ∀ b, synthBlock o req v = b →
      TrOk (blockVars b).st ∧ (∀ w, b = .ok w → Aligned w.st) := by
  intro b hb
  unfold synthBlock at hb
  by_cases hen : (req.synthesizer.enabled &&
      decide (req.mode = InteractionMode.collaboration)) = true
  case neg =>
    rw [if_neg hen] at hb
    subst hb
    exact ⟨hTr, fun w hw => by cases hw; exact hAl⟩
  case pos =>
    rw [if_pos hen] at hb
    simp only [checkCancel] at hb
    cases hcv : v.st.cancel || o.extCancelBy v.st.checks with
    | true =>
      rw [hcv] at hb
      split at hb
      case isTrue hcond => simp at hcond
      case isFalse hcond =>
        subst hb
        refine ⟨hTr, fun w hw => by cases hw; exact ⟨hAl.1, fun hc => by simp at hc⟩⟩
    | false =>
      rw [hcv] at hb
      have hcf : v.st.cancel = false := (Bool.or_eq_false_iff.mp hcv).1
      split at hb
      case isFalse hcond =>
        subst hb
        refine ⟨hTr, fun w hw => by cases hw; exact ⟨hAl.1, fun _ => hAl.2 hcf⟩⟩
      case isTrue hcond =>
        have hfac : ∀ st3 res,
            runnerStreamOneTurn o
              { v.st with
                  cancel := false
                  checks := v.st.checks + 1
                  turn := v.st.turn + 1
                  facCalls := v.st.facCalls ++
                    [("synthesizer", decide (v.st.actor_turns ≥ req.turn_limit))] }
              "synthesizer" "Synthesizer" (req.synthesizer.model.getD "") (-2)
              (v.st.turn + 1) = (st3, res) →
            TrOk st3 ∧ ((∃ f m, res = TurnRes.raised f m) ∨ Aligned st3) := by
          intro st3 res heq
          exact facTurn_inv o
            { v.st with
                cancel := false
                checks := v.st.checks + 1
                turn := v.st.turn + 1
                facCalls := v.st.facCalls ++
                  [("synthesizer", decide (v.st.actor_turns ≥ req.turn_limit))] }
            "synthesizer" "Synthesizer" (req.synthesizer.model.getD "") (-2)
            hTr.1 hTr.2
            (show v.st.turn + 1 = v.st.transcript.length + 1 by rw [hAl.2 hcf])
            st3 res heq
        split at hb
        case h_1 st3 terminate heq =>
          have h3 := hfac st3 (.ok terminate) heq
          have hal3 : Aligned st3 := by
            rcases h3.2 with ⟨f, m, habs⟩ | h
            · cases habs
            · exact h
          split at hb <;> subst hb <;>
            exact ⟨h3.1, fun w hw => by cases hw; exact hal3⟩
        case h_2 st3 heq =>
          have h3 := hfac st3 .noneRes heq
          have hal3 : Aligned st3 := by
            rcases h3.2 with ⟨f, m, habs⟩ | h
            · cases habs
            · exact h
          subst hb
          exact ⟨h3.1, fun w hw => by cases hw; exact hal3⟩
        case h_3 st3 friendly msg heq =>
          have h3 := hfac st3 (.raised friendly msg) heq
          subst hb
          refine ⟨⟨?_, ?_⟩, fun w hw => by cases hw⟩
          · simpa [pubEv] using h3.1.1
          · show msgEvents ((st3.events ++ [_]) ++ [_]) = _
            rw [msgEvents_append, msgEvents_append, msgEvents_error,
              msgEvents_statusOnly]
            simpa [pubEv] using h3.1.2

/-- The moderator block preserves transcript well-formedness, and alignment
on its `ok` outcome. -/
theorem moderatorBlock_inv (o : RunOracle) (req : StartSimulationRequest)
    (v : LoopVars) (hTr : TrOk v.st) (hAl : Aligned v.st) :
    ∀ b, moderatorBlock o req v = b →
      TrOk (blockVars b).st ∧ (∀ w, b = .ok w → Aligned w.st) := by
  intro b hb
  unfold moderatorBlock at hb
  by_cases hen : (req.moderator.enabled &&
      decide (req.mode = InteractionMode.debate)) = true
  case neg =>
    rw [if_neg hen] at hb
    subst hb
    exact ⟨hTr, fun w hw => by cases hw; exact hAl⟩
  case pos =>
    rw [if_pos hen] at hb
    simp only [checkCancel] at hb
    cases hcv : v.st.cancel || o.extCancelBy v.st.checks with
    | true =>
      rw [hcv] at hb
      split at hb
      case isTrue hcond => simp at hcond
      case isFalse hcond =>
        subst hb
        refine ⟨hTr, fun w hw => by cases hw; exact ⟨hAl.1, fun hc => by simp at hc⟩⟩
    | false =>
      rw [hcv] at hb
      have hcf : v.st.cancel = false := (Bool.or_eq_false_iff.mp hcv).1
      split at hb
      case isFalse hcond =>
        subst hb
        refine ⟨hTr, fun w hw => by cases hw; exact ⟨hAl.1, fun _ => hAl.2 hcf⟩⟩
      case isTrue hcond =>
        have hfac : ∀ st3 res,
            runnerStreamOneTurn o
              { v.st with
                  cancel := false
                  checks := v.st.checks + 1
                  turn := v.st.turn + 1
                  facCalls := v.st.facCalls ++
                    [("moderator", decide (v.st.actor_turns ≥ req.turn_limit))] }
              "moderator" "Moderator" (req.moderator.model.getD "") (-1)
              (v.st.turn + 1) = (st3, res) →
            TrOk st3 ∧ ((∃ f m, res = TurnRes.raised f m) ∨ Aligned st3) := by
          intro st3 res heq
          exact facTurn_inv o
            { v.st with
                cancel := false
                checks := v.st.checks + 1
                turn := v.st.turn + 1
                facCalls := v.st.facCalls ++
                  [("moderator", decide (v.st.actor_turns ≥ req.turn_limit))] }
            "moderator" "Moderator" (req.moderator.model.getD "") (-1)
            hTr.1 hTr.2
            (show v.st.turn + 1 = v.st.transcript.length + 1 by rw [hAl.2 hcf])
            st3 res heq
        split at hb
        case h_1 st3 terminate heq =>
          have h3 := hfac st3 (.ok terminate) heq
          have hal3 : Aligned st3 := by
            rcases h3.2 with ⟨f, m, habs⟩ | h
            · cases habs
            · exact h
          split at hb <;> subst hb <;>
            exact ⟨h3.1, fun w hw => by cases hw; exact hal3⟩
        case h_2 st3 heq =>
          have h3 := hfac st3 .noneRes heq
          have hal3 : Aligned st3 := by
            rcases h3.2 with ⟨f, m, habs⟩ | h
            · cases habs
            · exact h
          subst hb
          exact ⟨h3.1, fun w hw => by cases hw; exact hal3⟩
        case h_3 st3 friendly msg heq =>
          have h3 := hfac st3 (.raised friendly msg) heq
          subst hb
          refine ⟨⟨?_, ?_⟩, fun w hw => by cases hw⟩
          · simpa [pubEv] using h3.1.1
          · show msgEvents ((st3.events ++ [_]) ++ [_]) = _
            rw [msgEvents_append, msgEvents_append, msgEvents_error,
              msgEvents_statusOnly]
            simpa [pubEv] using h3.1.2

/-- The post-loop forced synthesizer call preserves transcript
well-formedness. -/
theorem finalSynth_inv (o : RunOracle) (req : StartSimulationRequest)
    (v : LoopVars) (hTr : TrOk v.st) (hAl : Aligned v.st) :
    ∀ w r, finalSynth o req v = (w, r) → TrOk w.st := by
  intro w r hb
  unfold finalSynth at hb
  simp only [checkCancel] at hb
  cases hcv : v.st.cancel || o.extCancelBy v.st.checks with
  | true =>
    rw [hcv] at hb
    split at hb
    case isTrue hcond => simp at hcond
    case isFalse hcond =>
      simp only [Prod.mk.injEq] at hb
      obtain ⟨h1, _⟩ := hb
      subst h1
      exact hTr
  | false =>
    rw [hcv] at hb
    have hcf : v.st.cancel = false := (Bool.or_eq_false_iff.mp hcv).1
    split at hb
    case isFalse hcond =>
      simp only [Prod.mk.injEq] at hb
      obtain ⟨h1, _⟩ := hb
      subst h1
      exact hTr
    case isTrue hcond =>
      have hfac : ∀ st3 res,
          runnerStreamOneTurn o
            { v.st with
                cancel := false
                checks := v.st.checks + 1
                turn := v.st.turn + 1
                facCalls := v.st.facCalls ++ [("synthesizer", true)] }
            "synthesizer" "Synthesizer" (req.synthesizer.model.getD "") (-2)
            (v.st.turn + 1) = (st3, res) →
          TrOk st3 ∧ ((∃ f m, res = TurnRes.raised f m) ∨ Aligned st3) := by
        intro st3 res heq
        exact facTurn_inv o
          { v.st with
              cancel := false
              checks := v.st.checks + 1
              turn := v.st.turn + 1
              facCalls := v.st.facCalls ++ [("synthesizer", true)] }
          "synthesizer" "Synthesizer" (req.synthesizer.model.getD "") (-2)
          hTr.1 hTr.2
          (show v.st.turn + 1 = v.st.transcript.length + 1 by rw [hAl.2 hcf])
          st3 res heq
      split at hb
      case h_1 st3 friendly msg heq =>
        have h3 := hfac st3 (.raised friendly msg) heq
        simp only [Prod.mk.injEq] at hb
        obtain ⟨h1, _⟩ := hb
        subst h1
        refine ⟨?_, ?_⟩
        · simpa [pubEv] using h3.1.1
        · show msgEvents ((st3.events ++ [_]) ++ [_]) = _
          rw [msgEvents_append, msgEvents_append, msgEvents_error,
            msgEvents_statusOnly]
          simpa [pubEv] using h3.1.2
      case h_2 st3 res hne heq =>
        have h3 := hfac st3 res heq
        simp only [Prod.mk.injEq] at hb
        obtain ⟨h1, _⟩ := hb
        subst h1
        exact h3.1

/-- The `LoopVars` carried by any loop exit. -/
def loopVarsOf : LoopExit → LoopVars
  | .fell v => v
  | .returned v => v
  | .raisedOut v _ => v

/-- The while loop preserves transcript well-formedness on every exit, and
alignment on the fall-through exit. -/
theorem mainLoop_inv (o : RunOracle) (settings : Settings)
    (req : StartSimulationRequest) :
    ∀ (fuel : Nat) (v : LoopVars), TrOk v.st → Aligned v.st →
      ∀ e, mainLoop o settings req fuel v = e →
        TrOk (loopVarsOf e).st ∧ (∀ v', e = .fell v' → Aligned v'.st) := by
  intro fuel
  induction fuel with
  | zero =>
    intro v hTr hAl e he
    simp only [mainLoop] at he
    subst he
    exact ⟨hTr, fun v' hv => by cases hv; exact hAl⟩
  | succ fuel ih =>
    intro v hTr hAl e he
    simp only [mainLoop] at he
    by_cases hbud : v.st.actor_turns < req.turn_limit
    case neg =>
      rw [if_neg hbud] at he
      subst he
      exact ⟨hTr, fun v' hv => by cases hv; exact hAl⟩
    case pos =>
      rw [if_pos hbud] at he
      simp only [checkCancel] at he
      cases hcv : v.st.cancel || o.extCancelBy v.st.checks with
      | true =>
        simp only [hcv] at he
        subst he
        exact ⟨hTr, fun v' hv => by cases hv; exact ⟨hAl.1, fun hc => by simp at hc⟩⟩
      | false =>
        simp only [hcv] at he
        have hcf : v.st.cancel = false := (Bool.or_eq_false_iff.mp hcv).1
        split at he
        case isTrue hidle =>
          subst he
          exact ⟨hTr, fun v' hv => by cases hv; exact ⟨hAl.1, fun hc => by simp at hc⟩⟩
        case isFalse hidle =>
          have hAl1 : Aligned { v.st with cancel := false, checks := v.st.checks + 1 } :=
            ⟨hAl.1, fun _ => hAl.2 hcf⟩
          split at he
          case h_1 st2 ex2 heqa =>
            -- actor pass ended with `.returned`
            have hap := actorPass_inv o settings req (req.agents.enumFrom 1)
              { v.st with cancel := false, checks := v.st.checks + 1 } 0 hTr hAl1
              st2 ex2 .returned heqa
            subst he
            exact ⟨hap.1, fun v' hv => by cases hv⟩
          case h_2 st2 ex2 msg heqa =>
            have hap := actorPass_inv o settings req (req.agents.enumFrom 1)
              { v.st with cancel := false, checks := v.st.checks + 1 } 0 hTr hAl1
              st2 ex2 (.raisedOut msg) heqa
            subst he
            exact ⟨hap.1, fun v' hv => by cases hv⟩
          case h_3 st2 ex2 exitv hne1 hne2 heqa =>
            have hap := actorPass_inv o settings req (req.agents.enumFrom 1)
              { v.st with cancel := false, checks := v.st.checks + 1 } 0 hTr hAl1
              st2 ex2 exitv heqa
            have hexit : exitv = .cont ∨ exitv = .broke := by
              cases exitv with
              | cont => exact Or.inl rfl
              | broke => exact Or.inr rfl
              | returned => exact absurd rfl hne1
              | raisedOut m => exact absurd rfl (hne2 m)
            have hTr2 := hap.1
            have hAl2 := hap.2 hexit
            split at he
            case h_1 wS heqs =>
              have hsb := synthBlock_inv o req _ hTr2 hAl2 _ heqs
              subst he
              exact ⟨hsb.1, fun v' hv => by cases hv⟩
            case h_2 wS heqs =>
              have hsb := synthBlock_inv o req _ hTr2 hAl2 _ heqs
              have hTrS := hsb.1
              have hAlS : Aligned wS.st := hsb.2 wS rfl
              split at he
              case h_1 wM heqm =>
                have hmb := moderatorBlock_inv o req wS hTrS hAlS _ heqm
                subst he
                exact ⟨hmb.1, fun v' hv => by cases hv⟩
              case h_2 wM heqm =>
                have hmb := moderatorBlock_inv o req wS hTrS hAlS _ heqm
                have hTrM := hmb.1
                have hAlM : Aligned wM.st := hmb.2 wM rfl
                split at he
                case isTrue hterm =>
                  subst he
                  exact ⟨hTrM, fun v' hv => by cases hv; exact hAlM⟩
                case isFalse hterm =>
                  exact ih wM hTrM hAlM e he

/-- The terminal status event changes neither transcript nor `message` events. -/
theorem finalStatus_TrOk (o : RunOracle) (st : LoopSt) (h : TrOk st) :
    TrOk (finalStatus o st) := by
  unfold finalStatus checkCancel
  cases hcv : st.cancel || o.extCancelBy st.checks <;>
    simp only [hcv] <;>
    exact ⟨h.1, by
      show msgEvents (st.events ++ [_]) = _
      rw [msgEvents_append, msgEvents_statusOnly]
      simpa using h.2⟩

/-- Any sealed transcript of the `try` body has contiguous turn indices
starting at 1, mirrored by the `message` events. -/
theorem runTry_TrOk (sid : String) (settings : Settings)
    (req : StartSimulationRequest) (o : RunOracle) (v0 : LoopVars)
    (hTr : TrOk v0.st) (hAl : Aligned v0.st) :
    ∀ res, runTry sid settings req o v0 = res →
      ∀ t, res.sealed = some t →
        t.messages.map TranscriptMessage.turn = List.range' 1 t.messages.length ∧
        msgEvents res.events = t.messages.map toMsgEvent := by
  intro res hres t ht
  unfold runTry at hres
  split at hres
  case h_1 v hml =>
    have h := (mainLoop_inv o settings req (req.turn_limit + 1) v0 hTr hAl _ hml).1
    subst hres
    simp only [sealRun, Option.some.injEq] at ht
    subst ht
    exact ⟨h.1, h.2⟩
  case h_2 v msg hml =>
    have h := (mainLoop_inv o settings req (req.turn_limit + 1) v0 hTr hAl _ hml).1
    subst hres
    simp only [sealRun, Option.some.injEq] at ht
    subst ht
    exact ⟨h.1, h.2⟩
  case h_3 v hml =>
    have h := mainLoop_inv o settings req (req.turn_limit + 1) v0 hTr hAl _ hml
    have hTrV : TrOk v.st := h.1
    have hAlV : Aligned v.st := h.2 v rfl
    split at hres
    case h_1 w heqf =>
      have hw := finalSynth_inv o req v hTrV hAlV w true heqf
      subst hres
      simp only [sealRun, Option.some.injEq] at ht
      subst ht
      exact ⟨hw.1, hw.2⟩
    case h_2 w heqf =>
      have hw := finalSynth_inv o req v hTrV hAlV w false heqf
      have hw2 := finalStatus_TrOk o w.st hw
      subst hres
      simp only [sealRun, Option.some.injEq] at ht
      subst ht
      exact ⟨hw2.1, hw2.2⟩

/-- The loop state right after `status{started}` is published. -/
def startedSt (cancel0 : Bool) : LoopSt :=
  { cancel := cancel0
    events := [.statusOnly "started"]
    transcript := []
    actor_turns := 0
    turn := 0
    calls := 0
    checks := 0
    facCalls := [] }

def startedVars (cancel0 : Bool) : LoopVars :=
  { st := startedSt cancel0
    terminated_early := false
    collaboration_rounds := 0
    synth_concluded := false
    iters := 0 }

/-- `run_simulation` either fails pre-flight, times out the orphan wait, or
runs the `try` body from a well-formed initial state. -/
theorem run_simulation_cases (sid : String) (settings : Settings)
    (req : StartSimulationRequest) (o : RunOracle) :
    (∃ msg, run_simulation sid settings req o =
        { events := [], sealed := none, cancel := false, raised := some msg }) ∨
    run_simulation sid settings req o =
        { events := [], sealed := none, cancel := true, raised := none } ∨
    ∃ v0, (TrOk v0.st ∧ Aligned v0.st) ∧
      run_simulation sid settings req o = runTry sid settings req o v0 := by
  unfold run_simulation
  split
  · exact Or.inl ⟨_, rfl⟩
  split
  · exact Or.inl ⟨_, rfl⟩
  split
  · exact Or.inl ⟨_, rfl⟩
  split
  · exact Or.inl ⟨_, rfl⟩
  split
  · exact Or.inl ⟨_, rfl⟩
  split
  · exact Or.inl ⟨_, rfl⟩
  by_cases hOE : (¬settings.env = "test" ∧ 0 < settings.orphan_grace_seconds)
  · obtain ⟨hOE1, hOE2⟩ := hOE
    cases ho : o.orphan with
    | timedOut =>
      refine Or.inr (Or.inl ?_)
      simp [hOE1, hOE2, ho]
    | cancelRequested =>
      refine Or.inr (Or.inr
        ⟨startedVars true, ⟨⟨rfl, rfl⟩, ⟨le_rfl, fun _ => rfl⟩⟩, ?_⟩)
      simp [hOE1, hOE2, ho, startedVars, startedSt]
    | subscriberAttached =>
      refine Or.inr (Or.inr
        ⟨startedVars false, ⟨⟨rfl, rfl⟩, ⟨le_rfl, fun _ => rfl⟩⟩, ?_⟩)
      simp [hOE1, hOE2, ho, startedVars, startedSt]
  · have hd : settings.env = "test" ∨ ¬(0 < settings.orphan_grace_seconds) := by
      tauto
    refine Or.inr (Or.inr
      ⟨startedVars false, ⟨⟨rfl, rfl⟩, ⟨le_rfl, fun _ => rfl⟩⟩, ?_⟩)
    rcases hd with hd | hd <;> simp [hd, startedVars, startedSt]

/-- C7: in every finalized transcript of `run_simulation`, the turn indices
of the messages are strictly increasing and contiguous starting at 1
(`1, 2, …, length`), and the published `message` events mirror the
transcript entries, in order, with the same sequential turn index. -/
theorem transcript_turns_contiguous_and_mirrored (sid : String)
    (settings : Settings) (req : StartSimulationRequest) (o : RunOracle) :
    ∀ t, (run_simulation sid settings req o).sealed = some t →
      t.messages.map TranscriptMessage.turn = List.range' 1 t.messages.length ∧
      msgEvents (run_simulation sid settings req o).events =
        t.messages.map toMsgEvent := by
  intro t ht
  rcases run_simulation_cases sid settings req o with ⟨msg, hr⟩ | hr |
    ⟨v0, ⟨hTr, hAl⟩, hr⟩
  · rw [hr] at ht
    cases ht
  · rw [hr] at ht
    cases ht
  · rw [hr] at ht ⊢
    exact runTry_TrOk sid settings req o v0 hTr hAl _ rfl t ht

/-- The transcript of the C1 fixture run, used to instantiate the C7 theorem. -/
def tC1 : SimulationTranscript :=
  { simulation_id := "sim-1", topic := "Is AI sentient?", mode := .debate,
    messages := [{ role := "agent", name := "Agent A", content := "hello",
                   turn := 1, model := "gpt-4o-mini", agent_id := 1 }] }

/-- C7 witness: the fixture run's sealed transcript has turns `[1]` and one
mirroring `message` event. -/
theorem transcript_turns_contiguous_and_mirrored_witness :
    tC1.messages.map TranscriptMessage.turn = List.range' 1 tC1.messages.length ∧
    msgEvents (run_simulation "sim-1" settingsTest reqTwoActors helloOracle).events =
      tC1.messages.map toMsgEvent :=
  transcript_turns_contiguous_and_mirrored "sim-1" settingsTest reqTwoActors
    helloOracle tC1 rfl

/-- The synthesizer block's facilitator-invocation condition, observed on the
ghost `facCalls` trace. -/
theorem synthBlock_facCalls (o : RunOracle) (req : StartSimulationRequest)
    (v : LoopVars) (hext : ∀ k, o.extCancelBy k = false) :
    ∀ b, synthBlock o req v = b →
      (blockVars b).st.facCalls = v.st.facCalls ++
        (if (req.synthesizer.enabled &&
              decide (req.mode = InteractionMode.collaboration) &&
              !v.st.cancel && optStrTruthy req.synthesizer.model &&
              decide (v.collaboration_rounds > 0) &&
              decide (v.collaboration_rounds % req.synthesizer.frequency_turns = 0))
            = true
         then [("synthesizer", decide (v.st.actor_turns ≥ req.turn_limit))]
         else []) := by
  intro b hb
  unfold synthBlock at hb
  by_cases hen : (req.synthesizer.enabled &&
      decide (req.mode = InteractionMode.collaboration)) = true
  case neg =>
    rw [if_neg hen] at hb
    subst hb
    rw [if_neg (fun hc => hen (by
      simp only [Bool.and_eq_true] at hc ⊢
      tauto))]
    simp [blockVars]
  case pos =>
    rw [if_pos hen] at hb
    simp only [checkCancel, hext] at hb
    cases hcv : v.st.cancel with
    | true =>
      rw [hcv] at hb
      split at hb
      case isTrue hcond => simp at hcond
      case isFalse hcond =>
        subst hb
        rw [if_neg (fun hc => by
          simp only [Bool.and_eq_true, hcv] at hc
          rcases hc with ⟨⟨⟨⟨_, hfalse⟩, _⟩, _⟩, _⟩
          simp at hfalse)]
        simp [blockVars]
    | false =>
      rw [hcv] at hb
      split at hb
      case isFalse hcond =>
        subst hb
        rw [if_neg (fun hc => hcond (by
          simp only [Bool.and_eq_true, hcv, Bool.or_self, Bool.not_false,
            Bool.true_and] at hc ⊢
          tauto))]
        simp [blockVars]
      case isTrue hcond =>
        have hpos : (req.synthesizer.enabled &&
            decide (req.mode = InteractionMode.collaboration) && !false &&
            optStrTruthy req.synthesizer.model &&
            decide (v.collaboration_rounds > 0) &&
            decide (v.collaboration_rounds % req.synthesizer.frequency_turns = 0))
            = true := by
          simp only [Bool.and_eq_true, Bool.or_self, Bool.not_false,
            Bool.true_and, Bool.and_true] at hcond hen ⊢
          tauto
        split at hb
        case h_1 st3 terminate heq =>
          have hfc := (runnerStreamOneTurn_spec o _ "synthesizer" "Synthesizer"
            (req.synthesizer.model.getD "") (-2) st3 (.ok terminate) heq).2.2.1
          split at hb <;> subst hb <;> (rw [hpos]; simpa [blockVars] using hfc)
        case h_2 st3 heq =>
          have hfc := (runnerStreamOneTurn_spec o _ "synthesizer" "Synthesizer"
            (req.synthesizer.model.getD "") (-2) st3 .noneRes heq).2.2.1
          subst hb
          rw [hpos]
          simpa [blockVars] using hfc
        case h_3 st3 friendly msg heq =>
          have hfc := (runnerStreamOneTurn_spec o _ "synthesizer" "Synthesizer"
            (req.synthesizer.model.getD "") (-2) st3 (.raised friendly msg) heq).2.2.1
          subst hb
          rw [hpos]
          simpa [blockVars, pubEv] using hfc

/-- The moderator block's facilitator-invocation condition, observed on the
ghost `facCalls` trace. -/
theorem moderatorBlock_facCalls (o : RunOracle) (req : StartSimulationRequest)
    (v : LoopVars) (hext : ∀ k, o.extCancelBy k = false) :
    ∀ b, moderatorBlock o req v = b →
      (blockVars b).st.facCalls = v.st.facCalls ++
        (if (req.moderator.enabled &&
              decide (req.mode = InteractionMode.debate) &&
              !v.st.cancel && optStrTruthy req.moderator.model &&
              decide (v.st.turn % req.moderator.frequency_turns = 0)) = true
         then [("moderator", decide (v.st.actor_turns ≥ req.turn_limit))]
         else []) := by
  intro b hb
  unfold moderatorBlock at hb
  by_cases hen : (req.moderator.enabled &&
      decide (req.mode = InteractionMode.debate)) = true
  case neg =>
    rw [if_neg hen] at hb
    subst hb
    rw [if_neg (fun hc => hen (by
      simp only [Bool.and_eq_true] at hc ⊢
      tauto))]
    simp [blockVars]
  case pos =>
    rw [if_pos hen] at hb
    simp only [checkCancel, hext] at hb
    cases hcv : v.st.cancel with
    | true =>
      rw [hcv] at hb
      split at hb
      case isTrue hcond => simp at hcond
      case isFalse hcond =>
        subst hb
        rw [if_neg (fun hc => by
          simp only [Bool.and_eq_true] at hc
          rcases hc with ⟨⟨⟨_, hfalse⟩, _⟩, _⟩
          simp at hfalse)]
        simp [blockVars]
    | false =>
      rw [hcv] at hb
      split at hb
      case isFalse hcond =>
        subst hb
        rw [if_neg (fun hc => hcond (by
          simp only [Bool.and_eq_true, Bool.or_self, Bool.not_false,
            Bool.true_and] at hc ⊢
          tauto))]
        simp [blockVars]
      case isTrue hcond =>
        have hpos : (req.moderator.enabled &&
            decide (req.mode = InteractionMode.debate) && !false &&
            optStrTruthy req.moderator.model &&
            decide (v.st.turn % req.moderator.frequency_turns = 0)) = true := by
          simp only [Bool.and_eq_true, Bool.or_self, Bool.not_false,
            Bool.true_and, Bool.and_true] at hcond hen ⊢
          tauto
        split at hb
        case h_1 st3 terminate heq =>
          have hfc := (runnerStreamOneTurn_spec o _ "moderator" "Moderator"
            (req.moderator.model.getD "") (-1) st3 (.ok terminate) heq).2.2.1
          split at hb <;> subst hb <;> (rw [hpos]; simpa [blockVars] using hfc)
        case h_2 st3 heq =>
          have hfc := (runnerStreamOneTurn_spec o _ "moderator" "Moderator"
            (req.moderator.model.getD "") (-1) st3 .noneRes heq).2.2.1
          subst hb
          rw [hpos]
          simpa [blockVars] using hfc
        case h_3 st3 friendly msg heq =>
          have hfc := (runnerStreamOneTurn_spec o _ "moderator" "Moderator"
            (req.moderator.model.getD "") (-1) st3 (.raised friendly msg) heq).2.2.1
          subst hb
          rw [hpos]
          simpa [blockVars, pubEv] using hfc

/-- The forced final synthesizer's invocation condition, observed on the
ghost `facCalls` trace. -/
theorem finalSynth_facCalls (o : RunOracle) (req : StartSimulationRequest)
    (v : LoopVars) (hext : ∀ k, o.extCancelBy k = false) :
    ∀ w r, finalSynth o req v = (w, r) →
      w.st.facCalls = v.st.facCalls ++
        (if (!v.st.cancel && !v.terminated_early && req.synthesizer.enabled &&
              decide (req.mode = InteractionMode.collaboration) &&
              optStrTruthy req.synthesizer.model && !v.synth_concluded) = true
         then [("synthesizer", true)]
         else []) := by
  intro w r hb
  unfold finalSynth at hb
  simp only [checkCancel, hext] at hb
  cases hcv : v.st.cancel with
  | true =>
    rw [hcv] at hb
    split at hb
    case isTrue hcond => simp at hcond
    case isFalse hcond =>
      simp only [Prod.mk.injEq] at hb
      obtain ⟨h1, _⟩ := hb
      subst h1
      rw [if_neg (fun hc => by
        simp only [Bool.and_eq_true] at hc
        rcases hc with ⟨⟨⟨⟨⟨hfalse, _⟩, _⟩, _⟩, _⟩, _⟩
        simp at hfalse)]
      simp
  | false =>
    rw [hcv] at hb
    split at hb
    case isFalse hcond =>
      simp only [Prod.mk.injEq] at hb
      obtain ⟨h1, _⟩ := hb
      subst h1
      rw [if_neg (fun hc => hcond (by
        simp only [Bool.and_eq_true, Bool.or_self, Bool.not_false,
          Bool.true_and] at hc ⊢
        tauto))]
      simp
    case isTrue hcond =>
      have hpos : (!false && !v.terminated_early && req.synthesizer.enabled &&
          decide (req.mode = InteractionMode.collaboration) &&
          optStrTruthy req.synthesizer.model && !v.synth_concluded) = true := by
        simp only [Bool.and_eq_true, Bool.or_self, Bool.not_false,
          Bool.true_and, Bool.and_true] at hcond ⊢
        tauto
      split at hb
      case h_1 st3 friendly msg heq =>
        have hfc := (runnerStreamOneTurn_spec o _ "synthesizer" "Synthesizer"
          (req.synthesizer.model.getD "") (-2) st3 (.raised friendly msg) heq).2.2.1
        simp only [Prod.mk.injEq] at hb
        obtain ⟨h1, _⟩ := hb
        subst h1
        rw [hpos]
        simpa [pubEv] using hfc
      case h_2 st3 res hne heq =>
        have hfc := (runnerStreamOneTurn_spec o _ "synthesizer" "Synthesizer"
          (req.synthesizer.model.getD "") (-2) st3 res heq).2.2.1
        simp only [Prod.mk.injEq] at hb
        obtain ⟨h1, _⟩ := hb
        subst h1
        rw [hpos]
        simpa using hfc

/-- C9 (amended): absent any cancellation request, the facilitator cadence
after each round is: the synthesizer is invoked iff it is enabled, the mode
is `collaboration`, no cancellation has been observed, a model is
configured, and the number of *completed full rounds* is a positive
multiple of its `frequency_turns`; the moderator is invoked iff it is
enabled, the mode is `debate`, no cancellation has been observed, a model
is configured, and the running sequential message index `turn` (which also
counts facilitator messages) is divisible by its `frequency_turns`; and
after the loop one forced synthesizer call with `final_call = true` runs
iff the synthesizer is enabled in collaboration mode with a model, no
cancellation has been observed, and the run neither terminated early nor
already saw the synthesizer conclude.  In-loop calls carry
`final_call = (actor-turn budget exhausted)`.  (This corrects the claimed
"positive multiple of `2 × frequency_turns` actor turns, or last possible
round" trigger.) -/
theorem facilitator_cadence (o : RunOracle) (req : StartSimulationRequest)
    (v : LoopVars) (hext : ∀ k, o.extCancelBy k = false) :
    (blockVars (synthBlock o req v)).st.facCalls = v.st.facCalls ++
      (if (req.synthesizer.enabled &&
            decide (req.mode = InteractionMode.collaboration) &&
            !v.st.cancel && optStrTruthy req.synthesizer.model &&
            decide (v.collaboration_rounds > 0) &&
            decide (v.collaboration_rounds % req.synthesizer.frequency_turns = 0))
          = true
       then [("synthesizer", decide (v.st.actor_turns ≥ req.turn_limit))]
       else []) ∧
    (blockVars (moderatorBlock o req v)).st.facCalls = v.st.facCalls ++
      (if (req.moderator.enabled &&
            decide (req.mode = InteractionMode.debate) &&
            !v.st.cancel && optStrTruthy req.moderator.model &&
            decide (v.st.turn % req.moderator.frequency_turns = 0)) = true
       then [("moderator", decide (v.st.actor_turns ≥ req.turn_limit))]
       else []) ∧
    (finalSynth o req v).1.st.facCalls = v.st.facCalls ++
      (if (!v.st.cancel && !v.terminated_early && req.synthesizer.enabled &&
            decide (req.mode = InteractionMode.collaboration) &&
            optStrTruthy req.synthesizer.model && !v.synth_concluded) = true
       then [("synthesizer", true)]
       else []) :=
  ⟨synthBlock_facCalls o req v hext _ rfl,
   moderatorBlock_facCalls o req v hext _ rfl,
   finalSynth_facCalls o req v hext (finalSynth o req v).1 (finalSynth o req v).2 rfl⟩

/-- C9 witness: for the moderated fixture at the freshly-started state
(`turn = 0`, no cancellation), the moderator trigger `0 % 2 = 0` fires and
records a non-final call; the synthesizer conjuncts record nothing. -/
theorem facilitator_cadence_witness :
    (blockVars (moderatorBlock okOracle reqModerated (startedVars false))).st.facCalls
      = [("moderator", false)] ∧
    (blockVars (synthBlock okOracle reqModerated (startedVars false))).st.facCalls
      = [] := by
  have h := facilitator_cadence okOracle reqModerated (startedVars false)
    (fun _ => rfl)
  refine ⟨?_, ?_⟩
  · have := h.2.1
    simpa [startedVars, startedSt, reqModerated] using this
  · have := h.1
    simpa [startedVars, startedSt, reqModerated] using this
